import Mathlib

/-!
Verification of the Miri-oracle LLVM interpreter core.

This file gives a shallow embedding, in Lean 4, of the parts of the
interpreter implemented in
`llvm/lib/ExecutionEngine/Interpreter/Execution.cpp`,
`llvm/lib/ExecutionEngine/Interpreter/Interpreter.cpp` and
`llvm/lib/ExecutionEngine/Interpreter/Interpreter.h`, together with proofs
about the embedded definitions.

Modelling conventions:
* `APInt` values of bit width `w` are modelled as natural numbers taken
  modulo `2 ^ w`; every operation normalizes its result the way the APInt
  primitives do.
* C++ `unsigned` (32-bit) and `uint64_t` arithmetic is modelled with
  explicit `% 2 ^ 32` / `% 2 ^ 64` reductions where the source truncates.
* IEEE scalar floats (`float` / `double`) enter the interpreter only
  through comparisons in the fragment verified here, so they are modelled
  as an abstract IEEE comparison domain: either NaN or a finite value from
  a linear order.  The C++ comparison operators `== != < <= > >=` return
  `false` on NaN operands except `!=`, which returns `true`; the model
  implements exactly that.
* Oracle ("Miri") hooks are opaque function parameters collected in a
  `MiriHooks` record; a hook returning the C++ `true` failure status is
  modelled by an `Option` result of `none`.
* `report_fatal_error`, failing C++ `assert`s and C++ undefined behaviour
  (out-of-range `std::vector` indexing, `static_cast` to a wrong dynamic
  type, iterator underflow) surface as the `Outcome.fatal` constructor so
  that every embedded operation is total.
-/

/-- Pointer provenance `(alloc_id, tag)`, `struct MiriProvenance`. -/
structure MiriProvenance where
  alloc_id : Nat
  tag : Nat
deriving DecidableEq, Repr

/-- The sentinel "no provenance" value `NULL_PROVENANCE = {0, 0}`. -/
def nullProvenance : MiriProvenance := ⟨0, 0⟩

/-- A pointer with provenance, `struct MiriPointer { addr; prov }`. -/
structure MiriPointer where
  addr : Nat
  prov : MiriProvenance
deriving DecidableEq, Repr

/-- One stack-trace entry, `struct MiriErrorTrace { dir, file, line, column }`. -/
structure MiriErrorTrace where
  dir : String
  file : String
  line : Nat
  column : Nat
deriving DecidableEq, Repr

/-- Abstract IEEE comparison domain standing for the C++ `float`/`double`
payloads: a value is either a NaN or a finite value from a linear order.
Only comparisons are performed on floats in the verified fragment. -/
inductive FPVal where
  | nan
  | fin (x : Int)
deriving DecidableEq, Repr

namespace FPVal

/-- The C++ NaN test `x != x`. -/
def isNaN : FPVal → Bool
  | nan => true
  | fin _ => false

/-- C++ `x == y` on floats: `false` whenever either side is NaN. -/
def feq : FPVal → FPVal → Bool
  | fin a, fin b => a = b
  | _, _ => false

/-- C++ `x != y` on floats: `true` whenever either side is NaN. -/
def fne : FPVal → FPVal → Bool
  | fin a, fin b => a ≠ b
  | _, _ => true

/-- C++ `x < y` on floats: `false` whenever either side is NaN. -/
def flt : FPVal → FPVal → Bool
  | fin a, fin b => a < b
  | _, _ => false

/-- C++ `x <= y` on floats: `false` whenever either side is NaN. -/
def fle : FPVal → FPVal → Bool
  | fin a, fin b => a ≤ b
  | _, _ => false

/-- C++ `x > y` on floats: `false` whenever either side is NaN. -/
def fgt : FPVal → FPVal → Bool
  | fin a, fin b => a > b
  | _, _ => false

/-- C++ `x >= y` on floats: `false` whenever either side is NaN. -/
def fge : FPVal → FPVal → Bool
  | fin a, fin b => a ≥ b
  | _, _ => false

end FPVal

/-- `llvm::GenericValue`: the active payload of the C++ union/fields plus
the `Provenance` member that every value carries.  `int w v` stands for
`IntVal = APInt(w, v)` (with `v` reduced mod `2 ^ w`), `fp` for the
`FloatVal`/`DoubleVal` members, `ptrv` for `PointerVal`, and `agg` for
`AggregateVal`. -/
inductive GenericValue where
  | int (width : Nat) (val : Nat) (prov : MiriProvenance)
  | fp (x : FPVal) (prov : MiriProvenance)
  | ptrv (addr : Nat) (prov : MiriProvenance)
  | agg (elems : List GenericValue) (prov : MiriProvenance)

namespace GenericValue

/-- The default-constructed `GenericValue()`: `IntVal = APInt(1, 0)`, the
union zeroed, `Provenance = NULL_PROVENANCE`. -/
def default0 : GenericValue := .int 1 0 nullProvenance

/-- The `Provenance` field of a value. -/
def Provenance : GenericValue → MiriProvenance
  | int _ _ p => p
  | fp _ p => p
  | ptrv _ p => p
  | agg _ p => p

/-- Reading `IntVal.getZExtValue()`: the stored integer payload, or `0` for
values whose `IntVal` was left at its default `APInt(1, 0)`. -/
def intZExt : GenericValue → Nat
  | int w v _ => v % 2 ^ w
  | _ => 0

/-- The bit width of the stored `IntVal` (default `APInt(1, 0)` has width 1). -/
def intWidth : GenericValue → Nat
  | int w _ _ => w
  | _ => 1

/-- Reading the `FloatVal`/`DoubleVal` member; a zero-initialized union
reads back as the finite value `0.0`. -/
def asFP : GenericValue → FPVal
  | fp x _ => x
  | _ => .fin 0

/-- Reading the `AggregateVal` member; empty for scalar values. -/
def aggElems : GenericValue → List GenericValue
  | agg l _ => l
  | _ => []

/-- Reading `PointerVal` as a 64-bit address; a zeroed union reads as 0. -/
def asAddr : GenericValue → Nat
  | ptrv a _ => a
  | _ => 0

end GenericValue

/-- `GVTOMiriPointer`: rebuild a `MiriPointer` from `PointerVal` and the
`Provenance` field. -/
def GVTOMiriPointer (g : GenericValue) : MiriPointer :=
  ⟨g.asAddr, g.Provenance⟩

/-- `MiriPointerTOGV`: `GenericValue(MiriPointer)` stores the address in
`PointerVal` and the provenance in `Provenance`. -/
def MiriPointerTOGV (p : MiriPointer) : GenericValue :=
  .ptrv p.addr p.prov

/-- Wrap a C++ `bool` as the 1-bit `APInt(1, b)` result of a comparison. -/
def boolGV (b : Bool) : GenericValue :=
  .int 1 (if b then 1 else 0) nullProvenance

/-! ## Shift kernels (`getShiftAmount`, `visitShl`, `visitLShr`, `visitAShr`) -/

/-- `llvm::NextPowerOf2` from `MathExtras.h`: smear the bits of the 64-bit
argument rightwards and add one (64-bit wrap-around on the increment). -/
def NextPowerOf2 (A : Nat) : Nat :=
  let a := A ||| (A >>> 1)
  let a := a ||| (a >>> 2)
  let a := a ||| (a >>> 4)
  let a := a ||| (a >>> 8)
  let a := a ||| (a >>> 16)
  let a := a ||| (a >>> 32)
  (a + 1) % 2 ^ 64

/-- `getShiftAmount(orgShiftAmount, valueToShift)` from `Execution.cpp`:
use the amount when it is in range, otherwise mask it with
`NextPowerOf2(valueWidth - 1) - 1`. -/
def getShiftAmount (orgShiftAmount : Nat) (valueWidth : Nat) : Nat :=
  if orgShiftAmount < valueWidth then orgShiftAmount
  else (NextPowerOf2 (valueWidth - 1) - 1) &&& orgShiftAmount

/-- An `APInt` modelled as a bit width plus value; operations reduce
modulo `2 ^ width`. -/
structure APIntV where
  width : Nat
  val : Nat
deriving DecidableEq, Repr

namespace APIntV

/-- `APInt::shl(unsigned)`: bits shifted past the width are dropped. -/
def shl (x : APIntV) (amt : Nat) : APIntV :=
  ⟨x.width, ((x.val % 2 ^ x.width) <<< amt) % 2 ^ x.width⟩

/-- `APInt::lshr(unsigned)`: logical right shift. -/
def lshr (x : APIntV) (amt : Nat) : APIntV :=
  ⟨x.width, (x.val % 2 ^ x.width) >>> amt⟩

/-- `APInt::ashr(unsigned)`: arithmetic right shift, replicating the sign
bit into the vacated positions. -/
def ashr (x : APIntV) (amt : Nat) : APIntV :=
  let v := x.val % 2 ^ x.width
  if v.testBit (x.width - 1) then
    ⟨x.width, ((v >>> amt) ||| (2 ^ x.width - 2 ^ (x.width - min amt x.width))) % 2 ^ x.width⟩
  else
    ⟨x.width, v >>> amt⟩

/-- `APInt::rotl(unsigned)`: amount first reduced modulo the width. -/
def rotl (x : APIntV) (amt : Nat) : APIntV :=
  if x.width = 0 then x else
  let r := amt % x.width
  if r = 0 then ⟨x.width, x.val % 2 ^ x.width⟩
  else ⟨x.width, (((x.val % 2 ^ x.width) <<< r) % 2 ^ x.width) |||
        ((x.val % 2 ^ x.width) >>> (x.width - r))⟩

/-- `APInt::rotr(unsigned)`: amount first reduced modulo the width. -/
def rotr (x : APIntV) (amt : Nat) : APIntV :=
  if x.width = 0 then x else
  let r := amt % x.width
  if r = 0 then ⟨x.width, x.val % 2 ^ x.width⟩
  else ⟨x.width, ((x.val % 2 ^ x.width) >>> r) |||
        (((x.val % 2 ^ x.width) <<< (x.width - r)) % 2 ^ x.width)⟩

end APIntV

/-- The scalar branch of `Interpreter::visitShl`: shift `src1` left by
`getShiftAmount(shiftAmount, valueToShift)` where the raw amount is
`Src2.IntVal.getZExtValue()`. -/
def visitShlScalar (src1 src2 : APIntV) : APIntV :=
  src1.shl (getShiftAmount (src2.val % 2 ^ src2.width) src1.width)

/-- The scalar branch of `Interpreter::visitLShr`. -/
def visitLShrScalar (src1 src2 : APIntV) : APIntV :=
  src1.lshr (getShiftAmount (src2.val % 2 ^ src2.width) src1.width)

/-- The scalar branch of `Interpreter::visitAShr`. -/
def visitAShrScalar (src1 src2 : APIntV) : APIntV :=
  src1.ashr (getShiftAmount (src2.val % 2 ^ src2.width) src1.width)

/-- The vector branch of `Interpreter::visitShl`: the scalar computation
applied lane by lane (the source asserts equal lane counts). -/
def visitShlVector (src1 src2 : List APIntV) : List APIntV :=
  List.zipWith visitShlScalar src1 src2

/-- The vector branch of `Interpreter::visitLShr`. -/
def visitLShrVector (src1 src2 : List APIntV) : List APIntV :=
  List.zipWith visitLShrScalar src1 src2

/-- The vector branch of `Interpreter::visitAShr`. -/
def visitAShrVector (src1 src2 : List APIntV) : List APIntV :=
  List.zipWith visitAShrScalar src1 src2

/-! ## Funnel-shift kernel (`executeIntrinsicFshIntInst`) -/

/-- `executeIntrinsicFshIntInst` as written in `Execution.cpp`: the line
`APInt concat = Src1.IntVal <<= bitWidth | Src2.IntVal;` parses as a
compound shift assignment whose amount is `bitWidth | Src2.IntVal`
(an APInt of width `w`), clamped by `getLimitedValue(BitWidth)` inside
`APInt::operator<<=`; the "concatenation" therefore stays `w` bits wide.
The result is that `w`-bit value rotated by `Src3` (mod `w`). -/
def executeIntrinsicFshIntInst (w : Nat) (src1 src2 src3 : Nat)
    (isLeft : Bool) : APIntV :=
  let orAmt := (src2 % 2 ^ w) ||| (w % 2 ^ w)
  let shiftAmt := min orAmt w
  let concat : APIntV := ⟨w, ((src1 % 2 ^ w) <<< shiftAmt) % 2 ^ w⟩
  if isLeft then concat.rotl (src3 % 2 ^ w) else concat.rotr (src3 % 2 ^ w)

/-- Modelled from the spec: the intended funnel-shift semantics
("concatenate the two `w`-bit inputs into a `2w`-bit value, rotate by
`Src3 mod w`, take the high `w` bits"), which `Execution.cpp` fails to
implement because of the mis-applied compound assignment. -/
def fshIntendedSpec (w : Nat) (src1 src2 src3 : Nat) (isLeft : Bool) : APIntV :=
  let concat : APIntV := ⟨2 * w, (src1 % 2 ^ w) * 2 ^ w + (src2 % 2 ^ w)⟩
  let r := if w = 0 then 0 else src3 % w
  let rot := if isLeft then concat.rotl r else concat.rotr r
  ⟨w, rot.val / 2 ^ w⟩

/-! ## Floating-point comparison kernels -/

/-- The dynamic type tag consulted by the `executeFCMP_*` kernels: a scalar
float/double or a vector of them.  The `float` and `double` switch arms of
the C++ are textually identical up to the union member read, so one
abstract scalar case stands for both. -/
inductive FcmpTy where
  | fscalar
  | fvector
deriving DecidableEq, Repr

/-- Lane-wise comparison loop `IMPLEMENT_VECTOR_FCMP_T`. -/
def vecCmpLanes (f : FPVal → FPVal → Bool) (l1 l2 : List GenericValue) :
    List GenericValue :=
  List.zipWith (fun a b => boolGV (f a.asFP b.asFP)) l1 l2

/-- `MASK_VECTOR_NANS_T`: a NaN lane gets `FLAG`, other lanes `!FLAG`. -/
def maskVectorNaNs (flag : Bool) (l1 l2 : List GenericValue) :
    List GenericValue :=
  List.zipWith
    (fun a b => if a.asFP.isNaN || b.asFP.isNaN then boolGV flag
                else boolGV (!flag)) l1 l2

/-- `executeFCMP_OEQ`: `==` on the scalar or on every lane. -/
def executeFCMP_OEQ (s1 s2 : GenericValue) : FcmpTy → GenericValue
  | .fscalar => boolGV (s1.asFP.feq s2.asFP)
  | .fvector => .agg (vecCmpLanes FPVal.feq s1.aggElems s2.aggElems) nullProvenance

/-- `executeFCMP_OLE`. -/
def executeFCMP_OLE (s1 s2 : GenericValue) : FcmpTy → GenericValue
  | .fscalar => boolGV (s1.asFP.fle s2.asFP)
  | .fvector => .agg (vecCmpLanes FPVal.fle s1.aggElems s2.aggElems) nullProvenance

/-- `executeFCMP_OGE`. -/
def executeFCMP_OGE (s1 s2 : GenericValue) : FcmpTy → GenericValue
  | .fscalar => boolGV (s1.asFP.fge s2.asFP)
  | .fvector => .agg (vecCmpLanes FPVal.fge s1.aggElems s2.aggElems) nullProvenance

/-- `executeFCMP_OLT`. -/
def executeFCMP_OLT (s1 s2 : GenericValue) : FcmpTy → GenericValue
  | .fscalar => boolGV (s1.asFP.flt s2.asFP)
  | .fvector => .agg (vecCmpLanes FPVal.flt s1.aggElems s2.aggElems) nullProvenance

/-- `executeFCMP_OGT`. -/
def executeFCMP_OGT (s1 s2 : GenericValue) : FcmpTy → GenericValue
  | .fscalar => boolGV (s1.asFP.fgt s2.asFP)
  | .fvector => .agg (vecCmpLanes FPVal.fgt s1.aggElems s2.aggElems) nullProvenance

/-- `executeFCMP_ONE`: scalar NaN operands short-circuit to `false`
(`IMPLEMENT_SCALAR_NANS`); vectors build a NaN mask with `FLAG = false`,
compare lanes with `!=`, then force masked lanes to `false`. -/
def executeFCMP_ONE (s1 s2 : GenericValue) : FcmpTy → GenericValue
  | .fscalar =>
      if s1.asFP.isNaN || s2.asFP.isNaN then boolGV false
      else boolGV (s1.asFP.fne s2.asFP)
  | .fvector =>
      let destMask := maskVectorNaNs false s1.aggElems s2.aggElems
      let dest := vecCmpLanes FPVal.fne s1.aggElems s2.aggElems
      .agg (List.zipWith
              (fun m d => if m.intZExt = 0 then boolGV false else d)
              destMask dest) nullProvenance

/-- `executeFCMP_ORD`: both operands (lane-wise) are non-NaN. -/
def executeFCMP_ORD (s1 s2 : GenericValue) : FcmpTy → GenericValue
  | .fscalar => boolGV (!s1.asFP.isNaN && !s2.asFP.isNaN)
  | .fvector =>
      .agg (List.zipWith
              (fun a b => boolGV (!a.asFP.isNaN && !b.asFP.isNaN))
              s1.aggElems s2.aggElems) nullProvenance

/-- `executeFCMP_UNO`: some operand (lane-wise) is NaN. -/
def executeFCMP_UNO (s1 s2 : GenericValue) : FcmpTy → GenericValue
  | .fscalar => boolGV (s1.asFP.isNaN || s2.asFP.isNaN)
  | .fvector =>
      .agg (List.zipWith
              (fun a b => boolGV (a.asFP.isNaN || b.asFP.isNaN))
              s1.aggElems s2.aggElems) nullProvenance

/-- The common unordered wrapper: scalar NaN operands short-circuit to
`true` (`IMPLEMENT_UNORDERED`); vectors build a NaN mask with
`FLAG = true`, run the ordered kernel, then force masked lanes to `true`
(`IMPLEMENT_VECTOR_UNORDERED`). -/
def executeFCMP_unordered
    (ordered : GenericValue → GenericValue → FcmpTy → GenericValue)
    (s1 s2 : GenericValue) : FcmpTy → GenericValue
  | .fscalar =>
      if s1.asFP.isNaN || s2.asFP.isNaN then boolGV true
      else ordered s1 s2 .fscalar
  | .fvector =>
      let destMask := maskVectorNaNs true s1.aggElems s2.aggElems
      let dest := (ordered s1 s2 .fvector).aggElems
      .agg (List.zipWith
              (fun m d => if m.intZExt = 1 then boolGV true else d)
              destMask dest) nullProvenance

/-- `executeFCMP_UEQ`. -/
def executeFCMP_UEQ (s1 s2 : GenericValue) (ty : FcmpTy) : GenericValue :=
  executeFCMP_unordered executeFCMP_OEQ s1 s2 ty

/-- `executeFCMP_UNE`. -/
def executeFCMP_UNE (s1 s2 : GenericValue) (ty : FcmpTy) : GenericValue :=
  executeFCMP_unordered executeFCMP_ONE s1 s2 ty

/-- `executeFCMP_ULE`. -/
def executeFCMP_ULE (s1 s2 : GenericValue) (ty : FcmpTy) : GenericValue :=
  executeFCMP_unordered executeFCMP_OLE s1 s2 ty

/-- `executeFCMP_UGE`. -/
def executeFCMP_UGE (s1 s2 : GenericValue) (ty : FcmpTy) : GenericValue :=
  executeFCMP_unordered executeFCMP_OGE s1 s2 ty

/-- `executeFCMP_ULT`. -/
def executeFCMP_ULT (s1 s2 : GenericValue) (ty : FcmpTy) : GenericValue :=
  executeFCMP_unordered executeFCMP_OLT s1 s2 ty

/-- `executeFCMP_UGT`. -/
def executeFCMP_UGT (s1 s2 : GenericValue) (ty : FcmpTy) : GenericValue :=
  executeFCMP_unordered executeFCMP_OGT s1 s2 ty

/-! ## `visitExtractElementInst` -/

/-- The result type tag of an `extractelement` instruction. -/
inductive ExtractTy where
  | intTy
  | floatTy
  | doubleTy
  | otherTy
deriving DecidableEq, Repr

/-- The possible outcomes of `visitExtractElementInst`, sequenced exactly
as the source performs them. -/
inductive ExtractOutcome where
  | ok (g : GenericValue)
  | fatalInvalidIndex
  | fatalUnhandledType
  | oobElementAccess

/-- `Interpreter::visitExtractElementInst` body: the source reads
`Src1.AggregateVal[indx].Provenance` (line 2330) *before* the bounds
check `Src1.AggregateVal.size() > indx` (line 2333); an out-of-range
index therefore hits undefined behaviour (modelled as
`oobElementAccess`) before the `Invalid index` fatal error could fire. -/
def visitExtractElementInst (src1 src2 : GenericValue) (ty : ExtractTy) :
    ExtractOutcome :=
  let indx := src2.intZExt % 2 ^ 32
  match (src1.aggElems)[indx]? with
  | none => .oobElementAccess
  | some elem =>
    let destProv := elem.Provenance
    if src1.aggElems.length > indx then
      match ty with
      | .intTy => .ok (.int elem.intWidth (elem.intZExt) destProv)
      | .floatTy => .ok (.fp elem.asFP destProv)
      | .doubleTy => .ok (.fp elem.asFP destProv)
      | .otherTy => .fatalUnhandledType
    else .fatalInvalidIndex

/-! ## The interpreter state machine -/

/-- An SSA name / `llvm::Value*` identity. -/
abbrev VarId := Nat

/-- A basic-block identity. -/
abbrev BlockId := Nat

/-- An IR operand as resolved by `getOperandValue`: either a constant that
materializes to a fixed `GenericValue`, or an SSA name looked up in the
frame's value map. -/
inductive Operand where
  | const (g : GenericValue)
  | var (v : VarId)

/-- One incoming edge of a phi node: predecessor block and operand. -/
structure PhiEntry where
  pred : BlockId
  val : Operand

/-- The instruction kinds needed by the verified fragment.  Each carries
the statically known data the visitor reads from the IR node
(`DataLayout` sizes are precomputed on the instruction, as the source
computes them from types that the embedding does not reify). -/
inductive InstrKind where
  | phi (entries : List PhiEntry)
  | addI (op1 op2 : Operand)
  | retI (v : Option Operand)
  | loadI (ptrOp : Operand) (loadBytes : Nat) (loadAlign : Nat)
  | allocaI (numElemsOp : Operand) (typeAllocSize : Nat) (align : Nat)
  | callI (isVoid : Bool)
  | invokeI (isVoid : Bool) (normalDest : BlockId)

/-- An IR instruction: its `Value*` identity (the SSA slot it defines),
its kind, and its debug location if present. -/
structure Instr where
  id : VarId
  kind : InstrKind
  dloc : Option MiriErrorTrace

/-- Is this instruction a `PHINode`? -/
def Instr.isPhi (i : Instr) : Bool :=
  match i.kind with
  | .phi _ => true
  | _ => false

/-- A basic block: identity plus instruction list. -/
structure BasicBlock where
  id : BlockId
  instrs : List Instr

/-- An IR function: parameter names, variadic flag, whether it is a
declaration (no body), and its blocks (front = entry). -/
structure Func where
  params : List VarId
  isVarArg : Bool
  isDeclaration : Bool
  blocks : List BasicBlock

/-- Find a block of a function by identity (the C++ walks by pointer). -/
def Func.findBlock (f : Func) (b : BlockId) : Option BasicBlock :=
  f.blocks.find? (fun blk => blk.id == b)

/-- What `ExecutionContext.Caller` records about the call site: the call
instruction's SSA slot, whether its type is void, the normal destination
when the caller is an `invoke`, and its debug location. -/
structure CallerInfo where
  id : VarId
  isVoid : Bool
  normalDest : Option BlockId
  dloc : Option MiriErrorTrace

/-- The SSA environment `std::map<Value*, GenericValue>`; a missing key
default-constructs to `GenericValue()`. -/
def VarMap := VarId → GenericValue

/-- `SF.Values[V] = Val` (the `ValueTy` stamp of `SetValue` is not
modelled: no verified operation reads it). -/
def VarMap.set (m : VarMap) (k : VarId) (v : GenericValue) : VarMap :=
  fun x => if x = k then v else m x

/-- `struct ExecutionContext` (one stack frame). -/
structure ExecutionContext where
  curFunction : Func
  curBB : BlockId
  curInst : Nat
  previousInst : Option Instr
  caller : Option CallerInfo
  mustResolvePendingReturn : Bool
  values : VarMap
  varargs : List GenericValue
  miriAllocas : List MiriPointer

/-- A fresh frame as built by `ExecutionContext(Wrapper, MiriFree)`. -/
def ExecutionContext.init (f : Func) : ExecutionContext :=
  { curFunction := f
    curBB := 0
    curInst := 0
    previousInst := none
    caller := none
    mustResolvePendingReturn := false
    values := fun _ => GenericValue.default0
    varargs := []
    miriAllocas := [] }

/-- `class ExecutionThread`.  `ecStack` holds the frames with the list
head as the top of the stack (`ECStack.back()`); where the C++ iterates
the vector bottom-to-top the embedding iterates `ecStack.reverse`. -/
structure ExecutionThread where
  ecStack : List ExecutionContext
  exitValue : GenericValue
  initArgs : List GenericValue
  threadID : Nat

/-- A fresh `ExecutionThread()` (exit value zeroed). -/
def ExecutionThread.init (id : Nat) : ExecutionThread :=
  { ecStack := [], exitValue := GenericValue.default0, initArgs := [],
    threadID := id }

/-- The interpreter state shared by the thread-manager entry points: the
thread table, the current-thread id, the latched Miri error flag, and the
stack-trace buffer. -/
structure InterpState where
  threads : Nat → Option ExecutionThread
  currentThreadID : Nat
  miriErrorFlag : Bool
  stackTrace : List MiriErrorTrace

/-- The oracle hook table (each hook also receives the opaque wrapper
pointer in C++, which the embedding leaves implicit).  A boolean `true`
failure status is modelled by a `none` result. -/
structure MiriHooks where
  malloc : Nat → Nat → Bool → MiriPointer
  load : MiriPointer → Nat → Nat → Option GenericValue

/-- Results of embedded operations: either a successor value or a
`report_fatal_error` / assertion failure / C++ undefined behaviour. -/
inductive Outcome (α : Type) where
  | ok (a : α)
  | fatal (msg : String)

/-- `getOperandValue` restricted to the operand forms of the embedding
(constants materialize, SSA names read the frame's value map). -/
def getOperandValue (o : Operand) (sf : ExecutionContext) : GenericValue :=
  match o with
  | .const g => g
  | .var v => sf.values v

/-- Replace the top frame of a thread. -/
def ExecutionThread.setTop (t : ExecutionThread) (sf : ExecutionContext) :
    ExecutionThread :=
  { t with ecStack := sf :: t.ecStack.tail }

/-- Update one thread in the state's thread table. -/
def InterpState.setThread (s : InterpState) (id : Nat)
    (t : ExecutionThread) : InterpState :=
  { s with threads := fun x => if x = id then some t else s.threads x }

/-- `Interpreter::switchThread`. -/
def InterpState.switchThread (s : InterpState) (id : Nat) :
    Nat × InterpState :=
  (s.currentThreadID, { s with currentThreadID := id })

/-! ## `SwitchToNewBasicBlock` -/

/-- Phase one of `SwitchToNewBasicBlock`: loop over the leading phi nodes
of the destination block reading the incoming value selected by the
recorded predecessor.  `getBasicBlockIndex` returning `-1` (asserted
against in the source) is a fatal outcome. -/
def readPhiValues (prevBB : BlockId) (sf : ExecutionContext) :
    List Instr → Outcome (List GenericValue)
  | [] => .ok []
  | i :: rest =>
    match i.kind with
    | .phi entries =>
      match entries.find? (fun e => e.pred == prevBB) with
      | none => .fatal "PHINode does not contain entry for predecessor"
      | some e =>
        match readPhiValues prevBB sf rest with
        | .ok vs => .ok (getOperandValue e.val sf :: vs)
        | .fatal m => .fatal m
    | _ => .ok []

/-- Phase two of `SwitchToNewBasicBlock`: write all saved results into the
SSA map, in phi order. -/
def writePhiValues (m : VarMap) : List Instr → List GenericValue → VarMap
  | i :: rest, v :: vs =>
    match i.kind with
    | .phi _ => writePhiValues (m.set i.id v) rest vs
    | _ => m
  | _, _ => m

/-- The number of leading phi nodes of an instruction list (where both
loops of `SwitchToNewBasicBlock` leave `CurInst`). -/
def leadingPhiCount (l : List Instr) : Nat :=
  (l.takeWhile Instr.isPhi).length

/-- `Interpreter::SwitchToNewBasicBlock`: retarget the frame to `dest`,
then execute the leading phi nodes atomically — all incoming values are
read (phase one) before any is written (phase two). -/
def SwitchToNewBasicBlock (dest : BlockId) (sf : ExecutionContext) :
    Outcome ExecutionContext :=
  let prevBB := sf.curBB
  match sf.curFunction.findBlock dest with
  | none => .fatal "Branch target not found in current function"
  | some blk =>
    let sf1 := { sf with curBB := dest, curInst := 0 }
    let phis := blk.instrs.takeWhile Instr.isPhi
    if phis.isEmpty then .ok sf1
    else
      match readPhiValues prevBB sf1 phis with
      | .fatal m => .fatal m
      | .ok results =>
        .ok { sf1 with values := writePhiValues sf1.values phis results,
                       curInst := leadingPhiCount blk.instrs }

/-! ## Error latching (`registerMiriError`) -/

/-- `Interpreter::registerMiriErrorWithoutLocation`: set the error flag,
collect the debug locations of every frame's `Caller` walking the stack
in vector order, and prepend them to the `StackTrace` buffer (the
`stack_trace_recorder` callback has no effect on interpreter state). -/
def registerMiriErrorWithoutLocation (s : InterpState) : Outcome InterpState :=
  match s.threads s.currentThreadID with
  | none => .fatal "Current thread not found"
  | some th =>
    let callStackTrace :=
      th.ecStack.reverse.filterMap (fun sf => sf.caller.bind (fun c => c.dloc))
    .ok { s with miriErrorFlag := true,
                 stackTrace := callStackTrace ++ s.stackTrace }

/-- `Interpreter::registerMiriError(I)`: append the faulting instruction's
own debug location (when present), then latch the error. -/
def registerMiriError (i : Instr) (s : InterpState) : Outcome InterpState :=
  let s1 := match i.dloc with
    | some loc => { s with stackTrace := s.stackTrace ++ [loc] }
    | none => s
  registerMiriErrorWithoutLocation s1

/-! ## Memory instructions (`visitLoadInst`, `visitAllocaInst`) -/

/-- Run a frame-and-state transformation on the current thread's top
frame; fatal when the thread is missing or its stack is empty
(`Interpreter::context()` on an empty stack). -/
def withTopFrame (s : InterpState)
    (f : ExecutionContext → ExecutionThread → Outcome InterpState) :
    Outcome InterpState :=
  match s.threads s.currentThreadID with
  | none => .fatal "Current thread not found"
  | some th =>
    match th.ecStack with
    | [] => .fatal "Empty stack"
    | sf :: _ => f sf th

/-- `Interpreter::visitLoadInst`: resolve the pointer operand, call the
oracle load hook with the precomputed store size and ABI alignment; on
failure latch a Miri error at the instruction and return without touching
the SSA map, otherwise assign the produced value to the load's slot. -/
def visitLoadInst (hooks : MiriHooks) (i : Instr) (ptrOp : Operand)
    (loadBytes loadAlign : Nat) (s : InterpState) : Outcome InterpState :=
  withTopFrame s (fun sf th =>
    let src := getOperandValue ptrOp sf
    let p := GVTOMiriPointer src
    match hooks.load p loadBytes loadAlign with
    | none => registerMiriError i s
    | some result =>
      let sf1 := { sf with values := sf.values.set i.id result }
      .ok (s.setThread s.currentThreadID (th.setTop sf1)))

/-- `Interpreter::visitAllocaInst`: `NumElements` and `TypeSize` are C++
`unsigned` values (32-bit truncations of `getZExtValue()` and of the
`DataLayout` alloc size), their product wraps at `2 ^ 32`, and
`MemToAlloc = std::max(1U, NumElements * TypeSize)`.  The oracle malloc
hook is called with `is_stack = false`; the returned pointer becomes the
instruction's result and is pushed onto the frame's Miri alloca holder. -/
def visitAllocaInst (hooks : MiriHooks) (i : Instr) (numElemsOp : Operand)
    (typeAllocSize : Nat) (align : Nat) (s : InterpState) :
    Outcome InterpState :=
  withTopFrame s (fun sf th =>
    let numElements := (getOperandValue numElemsOp sf).intZExt % 2 ^ 32
    let typeSize := typeAllocSize % 2 ^ 32
    let memToAlloc := max 1 ((numElements * typeSize) % 2 ^ 32)
    let alignment := align
    let ptr := hooks.malloc memToAlloc alignment false
    let result := MiriPointerTOGV ptr
    let sf1 := { sf with values := sf.values.set i.id result,
                         miriAllocas := sf.miriAllocas ++ [ptr] }
    .ok (s.setThread s.currentThreadID (th.setTop sf1)))

/-! ## `ret` (`visitReturnInst` and helpers) -/

/-- `Interpreter::passReturnValueToLowerStackFrame`: with an empty stack
the returned value (or a zeroed value for `void`) becomes the thread's
exit value; otherwise, when the lower frame records a `Caller`, the value
is stored into the caller's SSA slot (unless the call is void), an invoke
caller switches to its normal destination, and `Caller` is cleared. -/
def passReturnValueToLowerStackFrame (retIsVoid : Bool)
    (result : GenericValue) (s : InterpState) : Outcome InterpState :=
  match s.threads s.currentThreadID with
  | none => .fatal "Current thread not found"
  | some th =>
    match th.ecStack with
    | [] =>
      let th1 := if retIsVoid then { th with exitValue := GenericValue.default0 }
                 else { th with exitValue := result }
      .ok (s.setThread s.currentThreadID th1)
    | callingSF :: rest =>
      match callingSF.caller with
      | none => .ok s
      | some c =>
        let sf1 := if c.isVoid then callingSF
                   else { callingSF with values := callingSF.values.set c.id result }
        match c.normalDest with
        | none =>
          let sf2 := { sf1 with caller := none }
          .ok (s.setThread s.currentThreadID { th with ecStack := sf2 :: rest })
        | some nd =>
          match SwitchToNewBasicBlock nd sf1 with
          | .fatal m => .fatal m
          | .ok sf2 =>
            let sf3 := { sf2 with caller := none }
            .ok (s.setThread s.currentThreadID { th with ecStack := sf3 :: rest })

/-- `Interpreter::popStackAndReturnValueToCaller`: pop the current frame,
then hand the result to the frame below (or to the exit slot). -/
def popStackAndReturnValueToCaller (retIsVoid : Bool)
    (result : GenericValue) (s : InterpState) : Outcome InterpState :=
  match s.threads s.currentThreadID with
  | none => .fatal "Current thread not found"
  | some th =>
    match th.ecStack with
    | [] => .fatal "Empty stack"
    | _ :: rest =>
      let s1 := s.setThread s.currentThreadID { th with ecStack := rest }
      passReturnValueToLowerStackFrame retIsVoid result s1

/-- `Interpreter::visitReturnInst`: evaluate the returned operand when the
`ret` has one (otherwise the type is void), then pop and deliver. -/
def visitReturnInst (retOp : Option Operand) (s : InterpState) :
    Outcome InterpState :=
  withTopFrame s (fun sf _ =>
    match retOp with
    | none => popStackAndReturnValueToCaller true GenericValue.default0 s
    | some op =>
      popStackAndReturnValueToCaller false (getOperandValue op sf) s)

/-! ## Integer `add` (scalar branch of `visitBinaryOperator`) -/

/-- `R.IntVal = Src1.IntVal + Src2.IntVal` (APInt addition wraps at the
common bit width; the result `GenericValue` is otherwise
default-constructed, so it carries null provenance). -/
def executeAddScalar (src1 src2 : GenericValue) : GenericValue :=
  .int src1.intWidth ((src1.intZExt + src2.intZExt) % 2 ^ src1.intWidth)
    nullProvenance

/-- The scalar-`add` arm of `Interpreter::visitBinaryOperator`. -/
def visitAddInst (i : Instr) (op1 op2 : Operand) (s : InterpState) :
    Outcome InterpState :=
  withTopFrame s (fun sf th =>
    let r := executeAddScalar (getOperandValue op1 sf) (getOperandValue op2 sf)
    let sf1 := { sf with values := sf.values.set i.id r }
    .ok (s.setThread s.currentThreadID (th.setTop sf1)))

/-! ## Instruction dispatch and `stepThread` -/

/-- The instruction fetched by `*CurInst` in the current block. -/
def fetchInstr (sf : ExecutionContext) : Option Instr :=
  (sf.curFunction.findBlock sf.curBB).bind (fun blk => blk.instrs[sf.curInst]?)

/-- `InstVisitor` dispatch restricted to the instruction kinds of the
embedding (call/invoke dispatch and phi execution are not reachable here:
phis are consumed by `SwitchToNewBasicBlock` and the call protocol is
exercised through the pending-return path of `stepThread`). -/
def visitInstr (hooks : MiriHooks) (i : Instr) (s : InterpState) :
    Outcome InterpState :=
  match i.kind with
  | .addI op1 op2 => visitAddInst i op1 op2 s
  | .retI v => visitReturnInst v s
  | .loadI ptrOp bytes align => visitLoadInst hooks i ptrOp bytes align s
  | .allocaI numOp tsize align => visitAllocaInst hooks i numOp tsize align s
  | .phi _ => .fatal "Unsupported instruction: phi reached the dispatcher"
  | .callI _ => .fatal "Unsupported instruction: call dispatch not modelled"
  | .invokeI _ _ => .fatal "Unsupported instruction: invoke dispatch not modelled"

/-- `Interpreter::stepThread` up to (and excluding) the `visit(I)`
dispatch: switch to the thread, then run the pending-return protocol on
the top frame exactly as the source writes it — note that when
`MustResolvePendingReturn` is *clear* the source raises the fatal
protocol error for a *null* `PendingReturnValue` (its own message says
"Unexpectedly received a pending return value"), and silently accepts a
non-null one. -/
def stepThreadPrelude (s0 : InterpState) (threadID : Nat)
    (pendingReturnValue : Option GenericValue) : Outcome InterpState :=
  let s := (s0.switchThread threadID).2
  match s.threads threadID with
  | none => .fatal "Current thread not found"
  | some th =>
    match th.ecStack with
    | [] => .fatal "Empty stack"
    | callingSF :: rest =>
      if callingSF.mustResolvePendingReturn then
        let sf1 := { callingSF with mustResolvePendingReturn := false }
        match pendingReturnValue with
        | none =>
          .fatal "Expected to receive a return value, but pending return value is null"
        | some result =>
          match sf1.curFunction.findBlock sf1.curBB with
          | none => .fatal "Current block not found"
          | some blk =>
            if sf1.curInst = 0 then
              .fatal "Iterator underflow before the call instruction"
            else
              match blk.instrs[sf1.curInst - 1]? with
              | none => .fatal "Call instruction not found before cursor"
              | some caller =>
                match caller.kind with
                | .callI isVoid =>
                  let sf2 := if isVoid then sf1
                             else { sf1 with values := sf1.values.set caller.id result }
                  let sf3 := { sf2 with caller := none }
                  .ok (s.setThread threadID { th with ecStack := sf3 :: rest })
                | .invokeI isVoid nd =>
                  let sf2 := if isVoid then sf1
                             else { sf1 with values := sf1.values.set caller.id result }
                  match SwitchToNewBasicBlock nd sf2 with
                  | .fatal m => .fatal m
                  | .ok sf3 =>
                    let sf4 := { sf3 with caller := none }
                    .ok (s.setThread threadID { th with ecStack := sf4 :: rest })
                | _ => .fatal "Previous instruction is not a call"
      else
        match pendingReturnValue with
        | none => .fatal "Unexpectedly received a pending return value."
        | some _ => .ok s

/-- `Interpreter::stepThread`: after the pending-return prelude, fetch the
instruction at the cursor, advance the cursor past it, record it as
`PreviousInst`, dispatch it, and report whether the thread's stack is
empty afterwards. -/
def stepThread (hooks : MiriHooks) (s0 : InterpState) (threadID : Nat)
    (pendingReturnValue : Option GenericValue) :
    Outcome (InterpState × Bool) :=
  match stepThreadPrelude s0 threadID pendingReturnValue with
  | .fatal m => .fatal m
  | .ok s =>
    match s.threads threadID with
    | none => .fatal "Current thread not found"
    | some th =>
      match th.ecStack with
      | [] => .fatal "Empty stack"
      | sf :: rest =>
        match fetchInstr sf with
        | none => .fatal "Instruction cursor past the end of the block"
        | some i =>
          let sf1 := { sf with curInst := sf.curInst + 1, previousInst := some i }
          let s1 := s.setThread threadID { th with ecStack := sf1 :: rest }
          match visitInstr hooks i s1 with
          | .fatal m => .fatal m
          | .ok s2 =>
            match s2.threads threadID with
            | none => .fatal "Current thread not found"
            | some th2 => .ok (s2, th2.ecStack.isEmpty)

/-! ## `callFunction`, `createThread` and `createThreadContext` -/

/-- `Interpreter::callFunction`: push a fresh frame; for a declaration the
external-call path pops it again and arms the caller's
`MustResolvePendingReturn` (the oracle `call_by_name` hook itself has no
effect on interpreter state); for a definition, point the frame at the
entry block, bind each declared parameter to the corresponding argument
(reading past the argument array is undefined behaviour), and move the
surplus arguments into the frame's varargs list. -/
def callFunction (f : Func) (argVals : List GenericValue) (s : InterpState) :
    Outcome InterpState :=
  match s.threads s.currentThreadID with
  | none => .fatal "Current thread not found"
  | some th =>
    let stackFrame := { ExecutionContext.init f with curFunction := f }
    if f.isDeclaration then
      -- callExternalFunction; popContext; arm the caller when a frame remains.
      match th.ecStack with
      | [] => .ok (s.setThread s.currentThreadID th)
      | caller :: rest =>
        let caller1 := { caller with mustResolvePendingReturn := true }
        .ok (s.setThread s.currentThreadID { th with ecStack := caller1 :: rest })
    else
      match f.blocks with
      | [] => .fatal "Function definition has no entry block"
      | entry :: _ =>
        if f.params.length ≤ argVals.length then
          let bound := List.zip f.params argVals
          let values1 := bound.foldl (fun m kv => m.set kv.1 kv.2) stackFrame.values
          let sf := { stackFrame with
            curBB := entry.id
            curInst := 0
            values := values1
            varargs := argVals.drop f.params.length }
          .ok (s.setThread s.currentThreadID { th with ecStack := sf :: th.ecStack })
        else .fatal "Argument array read out of range"

/-- `Interpreter::createThreadContext`: install a fresh thread under the
identifier and stash copies of the initial arguments. -/
def createThreadContext (s : InterpState) (threadID : Nat)
    (args : List GenericValue) : InterpState :=
  let th := { ExecutionThread.init threadID with initArgs := args }
  s.setThread threadID th

/-- `Interpreter::createThread`: create the thread context, switch to the
new thread, set up the function call with the stashed arguments, and
switch back to the previously current thread. -/
def createThread (s : InterpState) (nextThreadID : Nat) (f : Func)
    (args : List GenericValue) : Outcome InterpState :=
  let s1 := createThreadContext s nextThreadID args
  let (prevThread, s2) := s1.switchThread nextThreadID
  match callFunction f args s2 with
  | .fatal m => .fatal m
  | .ok s3 => .ok (s3.switchThread prevThread).2

/-! ## Small helpers for stating results -/

/-- Map over a non-fatal outcome. -/
def Outcome.map {α β : Type} (f : α → β) : Outcome α → Outcome β
  | .ok a => .ok (f a)
  | .fatal m => .fatal m

/-- The top frame of a thread of a non-fatal resulting state. -/
def topFrameOf (o : Outcome InterpState) (id : Nat) : Option ExecutionContext :=
  match o with
  | .ok s => (s.threads id).bind (fun th => th.ecStack.head?)
  | .fatal _ => none

/-- Indexing a `zipWith` inside bounds applies the function to the matching
elements. -/
theorem zipWith_getElemEq {α β γ : Type} (f : α → β → γ)
    (l1 : List α) (l2 : List β) (i : Nat) (h1 : i < l1.length)
    (h2 : i < l2.length) :
    (List.zipWith f l1 l2)[i]? = some (f (l1.get ⟨i, h1⟩) (l2.get ⟨i, h2⟩)) := by
  rw [List.getElem?_zipWith', List.getElem?_eq_getElem h1,
    List.getElem?_eq_getElem h2]
  simp

/-! ## C2: funnel shifts -/

/-- **C2.** The claim states the intended funnel-shift semantics: for
`fshl`/`fshr` on scalar integers of width `w`, concatenate the two `w`-bit
inputs into a `2w`-bit value, rotate by the third operand mod `w`, and
take the high `w` bits.  The code in `executeIntrinsicFshIntInst` does not
implement this: `APInt concat = Src1.IntVal <<= bitWidth | Src2.IntVal;`
shifts `Src1` left by `bitWidth | Src2` *within* width `w`.  At
`fshl i8 1, 0, 0` the intended result is `1` but the code produces `0`
(the shift amount becomes `8 | 0 = 8`, clearing `Src1`, and `Src2` is
never incorporated). -/
theorem fsh_compound_assignment_bug :
    executeIntrinsicFshIntInst 8 1 0 0 true = ⟨8, 0⟩ ∧
    fshIntendedSpec 8 1 0 0 true = ⟨8, 1⟩ ∧
    executeIntrinsicFshIntInst 8 1 0 0 true ≠ fshIntendedSpec 8 1 0 0 true ∧
    executeIntrinsicFshIntInst 8 0 1 1 false = ⟨8, 0⟩ ∧
    fshIntendedSpec 8 0 1 1 false = ⟨8, 128⟩ ∧
    executeIntrinsicFshIntInst 8 0 1 1 false ≠ fshIntendedSpec 8 0 1 1 false := by
  refine ⟨by decide, by decide, by decide, by decide, by decide, by decide⟩

/-! ## C7: shift-amount masking -/

/-- **C7.** For `shl`, `lshr` and `ashr`, scalar or element-wise on
vectors: with shift amount `s` and value width `w`, the amount actually
used is `s` when `s < w` and `(NextPowerOf2(w - 1) - 1) & s` otherwise;
in particular at width 32, `shl x, 33 = shl x, (33 & 31)`. -/
theorem shift_amount_masking :
    (∀ (x s : APIntV),
        visitShlScalar x s =
          x.shl (if s.val % 2 ^ s.width < x.width then s.val % 2 ^ s.width
                 else (NextPowerOf2 (x.width - 1) - 1) &&& (s.val % 2 ^ s.width)) ∧
        visitLShrScalar x s =
          x.lshr (if s.val % 2 ^ s.width < x.width then s.val % 2 ^ s.width
                  else (NextPowerOf2 (x.width - 1) - 1) &&& (s.val % 2 ^ s.width)) ∧
        visitAShrScalar x s =
          x.ashr (if s.val % 2 ^ s.width < x.width then s.val % 2 ^ s.width
                  else (NextPowerOf2 (x.width - 1) - 1) &&& (s.val % 2 ^ s.width))) ∧
    (∀ (l1 l2 : List APIntV) (i : Nat) (h1 : i < l1.length) (h2 : i < l2.length),
        (visitShlVector l1 l2)[i]? =
          some (visitShlScalar (l1.get ⟨i, h1⟩) (l2.get ⟨i, h2⟩)) ∧
        (visitLShrVector l1 l2)[i]? =
          some (visitLShrScalar (l1.get ⟨i, h1⟩) (l2.get ⟨i, h2⟩)) ∧
        (visitAShrVector l1 l2)[i]? =
          some (visitAShrScalar (l1.get ⟨i, h1⟩) (l2.get ⟨i, h2⟩))) ∧
    (∀ v : Nat, visitShlScalar ⟨32, v⟩ ⟨32, 33⟩ = visitShlScalar ⟨32, v⟩ ⟨32, 33 &&& 31⟩) := by
  refine ⟨fun x s => ⟨rfl, rfl, rfl⟩, fun l1 l2 i h1 h2 => ⟨?_, ?_, ?_⟩, fun v => ?_⟩
  · exact zipWith_getElemEq visitShlScalar l1 l2 i h1 h2
  · exact zipWith_getElemEq visitLShrScalar l1 l2 i h1 h2
  · exact zipWith_getElemEq visitAShrScalar l1 l2 i h1 h2
  · exact congrArg (fun a => APIntV.shl ⟨32, v⟩ a)
      (by decide : getShiftAmount (33 % 2 ^ 32) 32 =
        getShiftAmount ((33 &&& 31) % 2 ^ 32) 32)

/-- Witness for C7: the vector clause applied at concrete lanes, and the
width-32 masking instance at `x = 5`. -/
theorem shift_amount_masking_witness :
    (0 : Nat) < [(⟨32, 5⟩ : APIntV)].length ∧
    (visitShlVector [⟨32, 5⟩] [⟨32, 33⟩])[0]? = some (visitShlScalar ⟨32, 5⟩ ⟨32, 33⟩) ∧
    visitShlScalar ⟨32, 5⟩ ⟨32, 33⟩ = visitShlScalar ⟨32, 5⟩ ⟨32, 33 &&& 31⟩ := by
  refine ⟨by decide, ?_, shift_amount_masking.2.2 5⟩
  exact (shift_amount_masking.2.1 [⟨32, 5⟩] [⟨32, 33⟩] 0 (by decide) (by decide)).1

/-! ## C10: extractelement order of access and check -/

/-- **C10.** `visitExtractElementInst` reads the provenance of
`Src1.AggregateVal[indx]` before checking `indx` against the vector size:
whenever the (32-bit truncated) index is at least the vector length, the
embedded execution reaches the out-of-range element access, and the
`Invalid index` fatal error is unreachable on every input — the guard does
not protect the element access. -/
theorem extractelement_access_before_check :
    (∀ (src1 src2 : GenericValue) (ty : ExtractTy),
        src1.aggElems.length ≤ src2.intZExt % 2 ^ 32 →
        visitExtractElementInst src1 src2 ty = .oobElementAccess) ∧
    (∀ (src1 src2 : GenericValue) (ty : ExtractTy),
        visitExtractElementInst src1 src2 ty ≠ .fatalInvalidIndex) := by
  constructor
  · intro src1 src2 ty h
    simp only [visitExtractElementInst]
    rw [List.getElem?_eq_none h]
  · intro src1 src2 ty
    simp only [visitExtractElementInst]
    generalize src2.intZExt % 2 ^ 32 = k
    cases hx : (src1.aggElems)[k]? with
    | none => simp
    | some elem =>
      have hlt : k < src1.aggElems.length := (List.getElem?_eq_some.mp hx).1
      cases ty <;> simp [hlt]

/-- Witness for C10: a vector of length one read at index three. -/
theorem extractelement_access_before_check_witness :
    (GenericValue.agg [GenericValue.default0] nullProvenance).aggElems.length ≤
      (GenericValue.int 32 3 nullProvenance).intZExt % 2 ^ 32 ∧
    visitExtractElementInst (GenericValue.agg [GenericValue.default0] nullProvenance)
      (GenericValue.int 32 3 nullProvenance) .intTy = .oobElementAccess :=
  ⟨by decide, extractelement_access_before_check.1
      (GenericValue.agg [GenericValue.default0] nullProvenance)
      (GenericValue.int 32 3 nullProvenance) .intTy (by decide)⟩

/-! ## C9: NaN behaviour of the floating-point comparisons -/

/-- `zipWith` indexing, `getElem` form. -/
theorem zipWith_getElemIdx {α β γ : Type} (f : α → β → γ)
    (l1 : List α) (l2 : List β) (i : Nat) (h1 : i < l1.length)
    (h2 : i < l2.length) :
    (List.zipWith f l1 l2)[i]? = some (f l1[i] l2[i]) := by
  rw [List.getElem?_zipWith', List.getElem?_eq_getElem h1,
    List.getElem?_eq_getElem h2]
  rfl

/-- A NaN lane of the NaN mask carries `FLAG`. -/
theorem maskVectorNaNs_lane_nan (flag : Bool) (l1 l2 : List GenericValue)
    (i : Nat) (h1 : i < l1.length) (h2 : i < l2.length)
    (hnan : l1[i].asFP.isNaN = true ∨ l2[i].asFP.isNaN = true) :
    (maskVectorNaNs flag l1 l2)[i]? = some (boolGV flag) := by
  unfold maskVectorNaNs
  rw [zipWith_getElemIdx _ l1 l2 i h1 h2]
  rcases hnan with hh | hh <;> simp [hh]

/-- Lanes of the unordered wrapper are forced to `true` on NaN lanes. -/
theorem unordered_lane_nan
    (ordered : GenericValue → GenericValue → FcmpTy → GenericValue)
    (l1 l2 : List GenericValue) (p q : MiriProvenance) (i : Nat)
    (h1 : i < l1.length) (h2 : i < l2.length)
    (hlen : i < ((ordered (.agg l1 p) (.agg l2 q) .fvector).aggElems).length)
    (hnan : l1[i].asFP.isNaN = true ∨ l2[i].asFP.isNaN = true) :
    (executeFCMP_unordered ordered (.agg l1 p) (.agg l2 q) .fvector).aggElems[i]? =
      some (boolGV true) := by
  have hm : i < (maskVectorNaNs true l1 l2).length := by
    unfold maskVectorNaNs
    rw [List.length_zipWith]
    omega
  have hrep : (executeFCMP_unordered ordered (.agg l1 p) (.agg l2 q)
      .fvector).aggElems =
      List.zipWith (fun m d => if m.intZExt = 1 then boolGV true else d)
        (maskVectorNaNs true l1 l2)
        ((ordered (.agg l1 p) (.agg l2 q) .fvector).aggElems) := rfl
  rw [hrep]
  rw [zipWith_getElemIdx _ _ _ i hm hlen]
  have hmask := maskVectorNaNs_lane_nan true l1 l2 i h1 h2 hnan
  rw [List.getElem?_eq_getElem hm] at hmask
  rw [Option.some.inj hmask]
  rfl

/-- **C9.** Whenever an operand (scalar case) or the selected lane (vector
case) of a floating-point comparison is NaN, every ordered predicate
(`oeq, ogt, oge, olt, ole, one, ord`) produces `false` and every
unordered predicate (`ueq, ugt, uge, ult, ule, une, uno`) produces
`true` for that comparison or lane. -/
theorem fcmp_nan_ordering :
    (∀ (a b : FPVal) (p q : MiriProvenance),
        (a.isNaN = true ∨ b.isNaN = true) →
        executeFCMP_OEQ (.fp a p) (.fp b q) .fscalar = boolGV false ∧
        executeFCMP_OGT (.fp a p) (.fp b q) .fscalar = boolGV false ∧
        executeFCMP_OGE (.fp a p) (.fp b q) .fscalar = boolGV false ∧
        executeFCMP_OLT (.fp a p) (.fp b q) .fscalar = boolGV false ∧
        executeFCMP_OLE (.fp a p) (.fp b q) .fscalar = boolGV false ∧
        executeFCMP_ONE (.fp a p) (.fp b q) .fscalar = boolGV false ∧
        executeFCMP_ORD (.fp a p) (.fp b q) .fscalar = boolGV false ∧
        executeFCMP_UEQ (.fp a p) (.fp b q) .fscalar = boolGV true ∧
        executeFCMP_UGT (.fp a p) (.fp b q) .fscalar = boolGV true ∧
        executeFCMP_UGE (.fp a p) (.fp b q) .fscalar = boolGV true ∧
        executeFCMP_ULT (.fp a p) (.fp b q) .fscalar = boolGV true ∧
        executeFCMP_ULE (.fp a p) (.fp b q) .fscalar = boolGV true ∧
        executeFCMP_UNE (.fp a p) (.fp b q) .fscalar = boolGV true ∧
        executeFCMP_UNO (.fp a p) (.fp b q) .fscalar = boolGV true) ∧
    (∀ (l1 l2 : List GenericValue) (p q : MiriProvenance) (i : Nat)
        (h1 : i < l1.length) (h2 : i < l2.length),
        (l1[i].asFP.isNaN = true ∨ l2[i].asFP.isNaN = true) →
        (executeFCMP_OEQ (.agg l1 p) (.agg l2 q) .fvector).aggElems[i]? =
          some (boolGV false) ∧
        (executeFCMP_OGT (.agg l1 p) (.agg l2 q) .fvector).aggElems[i]? =
          some (boolGV false) ∧
        (executeFCMP_OGE (.agg l1 p) (.agg l2 q) .fvector).aggElems[i]? =
          some (boolGV false) ∧
        (executeFCMP_OLT (.agg l1 p) (.agg l2 q) .fvector).aggElems[i]? =
          some (boolGV false) ∧
        (executeFCMP_OLE (.agg l1 p) (.agg l2 q) .fvector).aggElems[i]? =
          some (boolGV false) ∧
        (executeFCMP_ONE (.agg l1 p) (.agg l2 q) .fvector).aggElems[i]? =
          some (boolGV false) ∧
        (executeFCMP_ORD (.agg l1 p) (.agg l2 q) .fvector).aggElems[i]? =
          some (boolGV false) ∧
        (executeFCMP_UEQ (.agg l1 p) (.agg l2 q) .fvector).aggElems[i]? =
          some (boolGV true) ∧
        (executeFCMP_UGT (.agg l1 p) (.agg l2 q) .fvector).aggElems[i]? =
          some (boolGV true) ∧
        (executeFCMP_UGE (.agg l1 p) (.agg l2 q) .fvector).aggElems[i]? =
          some (boolGV true) ∧
        (executeFCMP_ULT (.agg l1 p) (.agg l2 q) .fvector).aggElems[i]? =
          some (boolGV true) ∧
        (executeFCMP_ULE (.agg l1 p) (.agg l2 q) .fvector).aggElems[i]? =
          some (boolGV true) ∧
        (executeFCMP_UNE (.agg l1 p) (.agg l2 q) .fvector).aggElems[i]? =
          some (boolGV true) ∧
        (executeFCMP_UNO (.agg l1 p) (.agg l2 q) .fvector).aggElems[i]? =
          some (boolGV true)) := by
  constructor
  · intro a b p q hnan
    rcases a with _ | x <;> rcases b with _ | y <;>
      simp_all [executeFCMP_OEQ, executeFCMP_OGT, executeFCMP_OGE,
        executeFCMP_OLT, executeFCMP_OLE, executeFCMP_ONE, executeFCMP_ORD,
        executeFCMP_UEQ, executeFCMP_UGT, executeFCMP_UGE, executeFCMP_ULT,
        executeFCMP_ULE, executeFCMP_UNE, executeFCMP_UNO,
        executeFCMP_unordered, GenericValue.asFP, FPVal.isNaN, FPVal.feq,
        FPVal.fne, FPVal.flt, FPVal.fle, FPVal.fgt, FPVal.fge]
  · intro l1 l2 p q i h1 h2 hnan
    have lane : ∀ (g : GenericValue) (f : FPVal → FPVal → Bool),
        g.aggElems = List.zipWith (fun a b => boolGV (f a.asFP b.asFP)) l1 l2 →
        (∀ x y : FPVal, (x.isNaN = true ∨ y.isNaN = true) → f x y = false) →
        g.aggElems[i]? = some (boolGV false) := by
      intro g f hrep hf
      rw [hrep, zipWith_getElemIdx _ l1 l2 i h1 h2, hf _ _ hnan]
    have lenOf : ∀ (g : GenericValue) (f : FPVal → FPVal → Bool),
        g.aggElems = List.zipWith (fun a b => boolGV (f a.asFP b.asFP)) l1 l2 →
        i < g.aggElems.length := by
      intro g f hrep
      rw [hrep, List.length_zipWith]
      omega
    refine ⟨?_, ?_, ?_, ?_, ?_, ?_, ?_, ?_, ?_, ?_, ?_, ?_, ?_, ?_⟩
    · exact lane _ FPVal.feq rfl (by intro x y h; rcases x <;> rcases y <;>
        simp_all [FPVal.isNaN, FPVal.feq])
    · exact lane _ FPVal.fgt rfl (by intro x y h; rcases x <;> rcases y <;>
        simp_all [FPVal.isNaN, FPVal.fgt])
    · exact lane _ FPVal.fge rfl (by intro x y h; rcases x <;> rcases y <;>
        simp_all [FPVal.isNaN, FPVal.fge])
    · exact lane _ FPVal.flt rfl (by intro x y h; rcases x <;> rcases y <;>
        simp_all [FPVal.isNaN, FPVal.flt])
    · exact lane _ FPVal.fle rfl (by intro x y h; rcases x <;> rcases y <;>
        simp_all [FPVal.isNaN, FPVal.fle])
    · -- ONE: the mask is built with FLAG = false, forcing NaN lanes to false.
      have hm : i < (maskVectorNaNs false l1 l2).length := by
        unfold maskVectorNaNs
        rw [List.length_zipWith]
        omega
      have hd : i < (vecCmpLanes FPVal.fne l1 l2).length := by
        unfold vecCmpLanes
        rw [List.length_zipWith]
        omega
      have hrep : (executeFCMP_ONE (.agg l1 p) (.agg l2 q) .fvector).aggElems =
          List.zipWith (fun m d => if m.intZExt = 0 then boolGV false else d)
            (maskVectorNaNs false l1 l2) (vecCmpLanes FPVal.fne l1 l2) := rfl
      rw [hrep, zipWith_getElemIdx _ _ _ i hm hd]
      have hmask := maskVectorNaNs_lane_nan false l1 l2 i h1 h2 hnan
      rw [List.getElem?_eq_getElem hm] at hmask
      rw [Option.some.inj hmask]
      rfl
    · -- ORD: a NaN lane is not ordered.
      have hrep : (executeFCMP_ORD (.agg l1 p) (.agg l2 q) .fvector).aggElems =
          List.zipWith (fun a b => boolGV (!a.asFP.isNaN && !b.asFP.isNaN))
            l1 l2 := rfl
      rw [hrep, zipWith_getElemIdx _ l1 l2 i h1 h2]
      rcases hnan with hh | hh <;> simp [hh]
    · exact unordered_lane_nan executeFCMP_OEQ l1 l2 p q i h1 h2
        (lenOf _ FPVal.feq rfl) hnan
    · exact unordered_lane_nan executeFCMP_OGT l1 l2 p q i h1 h2
        (lenOf _ FPVal.fgt rfl) hnan
    · exact unordered_lane_nan executeFCMP_OGE l1 l2 p q i h1 h2
        (lenOf _ FPVal.fge rfl) hnan
    · exact unordered_lane_nan executeFCMP_OLT l1 l2 p q i h1 h2
        (lenOf _ FPVal.flt rfl) hnan
    · exact unordered_lane_nan executeFCMP_OLE l1 l2 p q i h1 h2
        (lenOf _ FPVal.fle rfl) hnan
    · refine unordered_lane_nan executeFCMP_ONE l1 l2 p q i h1 h2 ?_ hnan
      have hrep : (executeFCMP_ONE (.agg l1 p) (.agg l2 q) .fvector).aggElems =
          List.zipWith (fun m d => if m.intZExt = 0 then boolGV false else d)
            (maskVectorNaNs false l1 l2) (vecCmpLanes FPVal.fne l1 l2) := rfl
      rw [hrep, List.length_zipWith]
      unfold maskVectorNaNs vecCmpLanes
      rw [List.length_zipWith, List.length_zipWith]
      omega
    · -- UNO: a NaN lane is unordered.
      have hrep : (executeFCMP_UNO (.agg l1 p) (.agg l2 q) .fvector).aggElems =
          List.zipWith (fun a b => boolGV (a.asFP.isNaN || b.asFP.isNaN))
            l1 l2 := rfl
      rw [hrep, zipWith_getElemIdx _ l1 l2 i h1 h2]
      rcases hnan with hh | hh <;> simp [hh]

/-- Witness for C9: a NaN against `0.0`, scalar `oeq`/`ueq` and the first
lane of single-lane vectors. -/
theorem fcmp_nan_ordering_witness :
    (FPVal.isNaN .nan = true ∨ FPVal.isNaN (.fin 0) = true) ∧
    executeFCMP_OEQ (.fp .nan nullProvenance) (.fp (.fin 0) nullProvenance)
      .fscalar = boolGV false ∧
    executeFCMP_UEQ (.fp .nan nullProvenance) (.fp (.fin 0) nullProvenance)
      .fscalar = boolGV true ∧
    (executeFCMP_OEQ (.agg [.fp .nan nullProvenance] nullProvenance)
      (.agg [.fp (.fin 0) nullProvenance] nullProvenance) .fvector).aggElems[0]? =
      some (boolGV false) ∧
    (executeFCMP_UEQ (.agg [.fp .nan nullProvenance] nullProvenance)
      (.agg [.fp (.fin 0) nullProvenance] nullProvenance) .fvector).aggElems[0]? =
      some (boolGV true) := by
  have hs := fcmp_nan_ordering.1 .nan (.fin 0) nullProvenance nullProvenance
    (Or.inl rfl)
  have hv := fcmp_nan_ordering.2 [.fp .nan nullProvenance]
    [.fp (.fin 0) nullProvenance] nullProvenance nullProvenance 0
    (by decide) (by decide) (Or.inl rfl)
  exact ⟨Or.inl rfl, hs.1, hs.2.2.2.2.2.2.2.1, hv.1, hv.2.2.2.2.2.2.2.1⟩

/-! ## C4: atomic phi evaluation on block entry -/

/-- A phi node has an incoming entry for the given predecessor. -/
def phiHasEntry (prev : BlockId) (inst : Instr) : Bool :=
  match inst.kind with
  | .phi entries => (entries.find? (fun e => e.pred == prev)).isSome
  | _ => false

/-- Phase one succeeds on a list of phi nodes that all carry an entry for
the predecessor, and the value it saves for each phi is the phi's
selected operand evaluated in the *unmodified* frame. -/
theorem readPhiValues_char (prev : BlockId) (sf : ExecutionContext) :
    ∀ (phis : List Instr),
      (∀ inst ∈ phis, phiHasEntry prev inst = true) →
      ∃ rs, readPhiValues prev sf phis = .ok rs ∧ rs.length = phis.length ∧
        ∀ (k : Nat) (hk : k < phis.length) (entries : List PhiEntry)
          (e : PhiEntry), phis[k].kind = .phi entries →
          entries.find? (fun en => en.pred == prev) = some e →
          rs[k]? = some (getOperandValue e.val sf)
  | [] => fun _ => ⟨[], rfl, rfl, fun k hk => absurd hk (by simp)⟩
  | i :: rest => by
    intro hall
    have hi := hall i (List.mem_cons_self i rest)
    unfold phiHasEntry at hi
    cases hkind : i.kind with
    | phi entries =>
      rw [hkind] at hi
      cases hfind : entries.find? (fun e => e.pred == prev) with
      | none => simp [hfind] at hi
      | some e0 =>
        obtain ⟨rs, hok, hlen, hchar⟩ := readPhiValues_char prev sf rest
          (fun inst hmem => hall inst (List.mem_cons_of_mem i hmem))
        refine ⟨getOperandValue e0.val sf :: rs, ?_, by simp [hlen], ?_⟩
        · unfold readPhiValues
          simp only [hkind, hfind, hok]
        · intro k hk ents e hke hfe
          cases k with
          | zero =>
            simp only [List.getElem_cons_zero] at hke
            rw [hkind] at hke
            cases hke
            rw [hfind] at hfe
            cases hfe
            simp
          | succ k =>
            simp only [List.getElem_cons_succ] at hke
            simpa using hchar k (by simpa using hk) ents e hke hfe
    | addI o1 o2 => rw [hkind] at hi; simp at hi
    | retI v => rw [hkind] at hi; simp at hi
    | loadI a b c => rw [hkind] at hi; simp at hi
    | allocaI a b c => rw [hkind] at hi; simp at hi
    | callI a => rw [hkind] at hi; simp at hi
    | invokeI a b => rw [hkind] at hi; simp at hi

/-- Unfolding equation for `writePhiValues` on a cons/cons pair. -/
theorem writePhiValues_cons (m : VarMap) (i : Instr) (rest : List Instr)
    (r : GenericValue) (rs : List GenericValue) :
    writePhiValues m (i :: rest) (r :: rs) =
      match i.kind with
      | .phi _ => writePhiValues (m.set i.id r) rest rs
      | _ => m := rfl

/-- Phase two does not touch names outside the phi identifiers. -/
theorem writePhiValues_untouched (v : VarId) :
    ∀ (phis : List Instr) (rs : List GenericValue) (m : VarMap),
      v ∉ phis.map Instr.id → writePhiValues m phis rs v = m v
  | [], _, m => fun _ => rfl
  | _ :: _, [], m => fun _ => rfl
  | i :: rest, r :: rs, m => by
    intro hv
    simp only [List.map_cons, List.mem_cons] at hv
    push_neg at hv
    cases hkind : i.kind with
    | phi entries =>
      have hstep : writePhiValues m (i :: rest) (r :: rs) =
          writePhiValues (m.set i.id r) rest rs := by
        rw [writePhiValues_cons, hkind]
      rw [hstep, writePhiValues_untouched v rest rs _ hv.2]
      unfold VarMap.set
      rw [if_neg hv.1]
    | addI o1 o2 => rw [writePhiValues_cons, hkind]
    | retI a => rw [writePhiValues_cons, hkind]
    | loadI a b c => rw [writePhiValues_cons, hkind]
    | allocaI a b c => rw [writePhiValues_cons, hkind]
    | callI a => rw [writePhiValues_cons, hkind]
    | invokeI a b => rw [writePhiValues_cons, hkind]

/-- Phase two writes the `j`-th saved value into the `j`-th phi's SSA
slot when all instructions are phis with pairwise distinct identifiers. -/
theorem writePhiValues_at :
    ∀ (phis : List Instr) (rs : List GenericValue) (m : VarMap) (j : Nat)
      (hj : j < phis.length) (hr : j < rs.length),
      (∀ inst ∈ phis, inst.isPhi = true) →
      (phis.map Instr.id).Nodup →
      writePhiValues m phis rs (phis[j].id) = rs[j]
  | i :: rest, r :: rs, m, 0, hj, hr => by
    intro hall hnodup
    have hi := hall i (List.mem_cons_self i rest)
    unfold Instr.isPhi at hi
    cases hkind : i.kind with
    | phi entries =>
      have hstep : writePhiValues m (i :: rest) (r :: rs) =
          writePhiValues (m.set i.id r) rest rs := by
        rw [writePhiValues_cons, hkind]
      have hnotin : i.id ∉ rest.map Instr.id := by
        simp only [List.map_cons, List.nodup_cons] at hnodup
        exact hnodup.1
      simp only [List.getElem_cons_zero]
      rw [hstep, writePhiValues_untouched i.id rest rs _ hnotin]
      unfold VarMap.set
      rw [if_pos rfl]
    | addI o1 o2 => rw [hkind] at hi; simp at hi
    | retI a => rw [hkind] at hi; simp at hi
    | loadI a b c => rw [hkind] at hi; simp at hi
    | allocaI a b c => rw [hkind] at hi; simp at hi
    | callI a => rw [hkind] at hi; simp at hi
    | invokeI a b => rw [hkind] at hi; simp at hi
  | i :: rest, r :: rs, m, j + 1, hj, hr => by
    intro hall hnodup
    have hi := hall i (List.mem_cons_self i rest)
    unfold Instr.isPhi at hi
    cases hkind : i.kind with
    | phi entries =>
      have hstep : writePhiValues m (i :: rest) (r :: rs) =
          writePhiValues (m.set i.id r) rest rs := by
        rw [writePhiValues_cons, hkind]
      simp only [List.getElem_cons_succ]
      rw [hstep]
      exact writePhiValues_at rest rs _ j (by simpa using hj) (by simpa using hr)
        (fun inst hmem => hall inst (List.mem_cons_of_mem i hmem))
        (by simp only [List.map_cons, List.nodup_cons] at hnodup; exact hnodup.2)
    | addI o1 o2 => rw [hkind] at hi; simp at hi
    | retI a => rw [hkind] at hi; simp at hi
    | loadI a b c => rw [hkind] at hi; simp at hi
    | allocaI a b c => rw [hkind] at hi; simp at hi
    | callI a => rw [hkind] at hi; simp at hi
    | invokeI a b => rw [hkind] at hi; simp at hi

/-- The function of the phi-atomicity demonstration: block 1 holds
`a = phi [x from block 0, y from block 2]` and
`b = phi [y from block 0, x from block 2]` (ids: a = 30, b = 31,
x = 10, y = 20). -/
def phiDemoFunc : Func :=
  { params := [], isVarArg := false, isDeclaration := false,
    blocks := [⟨0, []⟩,
      ⟨1, [⟨30, .phi [⟨0, .var 10⟩, ⟨2, .var 20⟩], none⟩,
           ⟨31, .phi [⟨0, .var 20⟩, ⟨2, .var 10⟩], none⟩,
           ⟨32, .retI none, none⟩]⟩] }

/-- A frame sitting in block 0 of `phiDemoFunc` with `x = 1, y = 2`
(32-bit integers). -/
def phiDemoFrame : ExecutionContext :=
  { ExecutionContext.init phiDemoFunc with
    values := VarMap.set
      (VarMap.set (fun _ => GenericValue.default0) 10
        (.int 32 1 nullProvenance)) 20 (.int 32 2 nullProvenance) }

/-- **C4.** On block entry `SwitchToNewBasicBlock` evaluates the leading
phi nodes atomically: every phi's SSA slot receives the incoming operand
selected by the recorded predecessor evaluated against the *pre-entry*
value map; in the concrete `a = phi(x, y)`, `b = phi(y, x)` instance
entered from the predecessor binding `x = 1, y = 2` the results are
`a = 1` and `b = 2` — never `b = 1`. -/
theorem switch_bb_phi_atomic :
    (∀ (sf : ExecutionContext) (dest : BlockId) (blk : BasicBlock),
        sf.curFunction.findBlock dest = some blk →
        (∀ inst ∈ blk.instrs.takeWhile Instr.isPhi,
          phiHasEntry sf.curBB inst = true) →
        ((blk.instrs.takeWhile Instr.isPhi).map Instr.id).Nodup →
        ∀ (j : Nat) (hj : j < (blk.instrs.takeWhile Instr.isPhi).length)
          (entries : List PhiEntry) (e : PhiEntry),
          ((blk.instrs.takeWhile Instr.isPhi).get ⟨j, hj⟩).kind = .phi entries →
          entries.find? (fun en => en.pred == sf.curBB) = some e →
          (SwitchToNewBasicBlock dest sf).map
            (fun sfN => sfN.values
              (((blk.instrs.takeWhile Instr.isPhi).get ⟨j, hj⟩).id)) =
            .ok (getOperandValue e.val sf)) ∧
    (SwitchToNewBasicBlock 1 phiDemoFrame).map
      (fun sfN => (sfN.values 30, sfN.values 31)) =
      .ok (.int 32 1 nullProvenance, .int 32 2 nullProvenance) ∧
    GenericValue.int 32 2 nullProvenance ≠ GenericValue.int 32 1 nullProvenance := by
  refine ⟨?_, rfl, by simp⟩
  intro sf dest blk hblk hall hnodup j hj entries e hkind hfind
  have hallPhi : ∀ inst ∈ blk.instrs.takeWhile Instr.isPhi,
      inst.isPhi = true := fun inst hmem => List.mem_takeWhile_imp hmem
  obtain ⟨rs, hok, hlen, hchar⟩ :=
    readPhiValues_char sf.curBB { sf with curBB := dest, curInst := 0 }
      (blk.instrs.takeWhile Instr.isPhi) hall
  have hne : (blk.instrs.takeWhile Instr.isPhi).isEmpty = false := by
    cases hphis : blk.instrs.takeWhile Instr.isPhi with
    | nil => rw [hphis] at hj; simp at hj
    | cons a b => rfl
  have hr : j < rs.length := by rw [hlen]; exact hj
  have hrs := hchar j hj entries e (by simpa using hkind) hfind
  rw [List.getElem?_eq_getElem hr] at hrs
  unfold SwitchToNewBasicBlock
  rw [hblk]
  simp only [hne, Bool.false_eq_true, if_false, hok]
  unfold Outcome.map
  simp only [List.get_eq_getElem] at hkind ⊢
  rw [writePhiValues_at (blk.instrs.takeWhile Instr.isPhi) rs _ j hj hr
    hallPhi hnodup]
  rw [Option.some.inj hrs]
  rfl

/-- Witness for C4: the general atomicity clause applied to the first phi
of the demonstration block. -/
theorem switch_bb_phi_atomic_witness :
    (0 : Nat) <
      (((phiDemoFunc.blocks.get ⟨1, by decide⟩).instrs.takeWhile
        Instr.isPhi).length) ∧
    (SwitchToNewBasicBlock 1 phiDemoFrame).map
      (fun sfN => sfN.values
        ((((phiDemoFunc.blocks.get ⟨1, by decide⟩).instrs.takeWhile
          Instr.isPhi).get ⟨0, by decide⟩).id)) =
      .ok (getOperandValue (.var 10) phiDemoFrame) := by
  refine ⟨by decide, ?_⟩
  exact switch_bb_phi_atomic.1 phiDemoFrame 1
    (phiDemoFunc.blocks.get ⟨1, by decide⟩) rfl (by decide) (by decide)
    0 (by decide) [⟨0, .var 10⟩, ⟨2, .var 20⟩] ⟨0, .var 10⟩ rfl rfl

/-! ## C5: load errors latch a Miri error and leave the SSA map alone -/

/-- **C5.** When the oracle load hook fails, `visitLoadInst` latches a
Miri error — error flag set, the instruction's source location appended
to the stack-trace buffer together with the frames' caller locations —
and returns without writing the load's SSA slot (the whole thread table,
hence the frame's value map, is untouched); when the hook succeeds, the
produced value is stored into the instruction's SSA slot. -/
theorem load_error_latch :
    (∀ (hooks : MiriHooks) (i : Instr) (ptrOp : Operand) (bytes align : Nat)
        (s : InterpState) (th : ExecutionThread) (sf : ExecutionContext)
        (rest : List ExecutionContext) (loc : MiriErrorTrace),
        s.threads s.currentThreadID = some th →
        th.ecStack = sf :: rest →
        i.dloc = some loc →
        hooks.load (GVTOMiriPointer (getOperandValue ptrOp sf)) bytes align =
          none →
        visitLoadInst hooks i ptrOp bytes align s =
          .ok { s with
            miriErrorFlag := true,
            stackTrace :=
              (th.ecStack.reverse.filterMap
                (fun fr => fr.caller.bind (fun c => c.dloc))) ++
              (s.stackTrace ++ [loc]) } ∧
        (visitLoadInst hooks i ptrOp bytes align s).map
          (fun s2 => s2.threads s.currentThreadID) = .ok (some th) ∧
        (visitLoadInst hooks i ptrOp bytes align s).map
          (fun s2 => s2.miriErrorFlag) = .ok true ∧
        loc ∈ (th.ecStack.reverse.filterMap
                (fun fr => fr.caller.bind (fun c => c.dloc))) ++
              (s.stackTrace ++ [loc])) ∧
    (∀ (hooks : MiriHooks) (i : Instr) (ptrOp : Operand) (bytes align : Nat)
        (s : InterpState) (th : ExecutionThread) (sf : ExecutionContext)
        (rest : List ExecutionContext) (v : GenericValue),
        s.threads s.currentThreadID = some th →
        th.ecStack = sf :: rest →
        hooks.load (GVTOMiriPointer (getOperandValue ptrOp sf)) bytes align =
          some v →
        visitLoadInst hooks i ptrOp bytes align s =
          .ok (s.setThread s.currentThreadID
            (th.setTop { sf with values := sf.values.set i.id v }))) := by
  constructor
  · intro hooks i ptrOp bytes align s th sf rest loc hth hstack hdloc hload
    have hmain : visitLoadInst hooks i ptrOp bytes align s =
        .ok { s with
          miriErrorFlag := true,
          stackTrace :=
            (th.ecStack.reverse.filterMap
              (fun fr => fr.caller.bind (fun c => c.dloc))) ++
            (s.stackTrace ++ [loc]) } := by
      unfold visitLoadInst withTopFrame registerMiriError
        registerMiriErrorWithoutLocation
      simp only [hth, hstack, hload, hdloc]
    refine ⟨hmain, ?_, ?_, by simp⟩
    · rw [hmain]
      show Outcome.ok (s.threads s.currentThreadID) = Outcome.ok (some th)
      rw [hth]
    · rw [hmain]
      rfl
  · intro hooks i ptrOp bytes align s th sf rest v hth hstack hload
    unfold visitLoadInst withTopFrame
    simp only [hth, hstack, hload]

/-- A state with one thread (id 0) executing one frame of a given
function, used by the concrete instances below. -/
def singleFrameState (f : Func) : InterpState :=
  { threads := fun id =>
      if id = 0 then
        some { ecStack := [ExecutionContext.init f],
               exitValue := GenericValue.default0, initArgs := [],
               threadID := 0 }
      else none,
    currentThreadID := 0, miriErrorFlag := false, stackTrace := [] }

/-- A function whose entry block is a single load with a debug location. -/
def loadDemoFunc : Func :=
  { params := [], isVarArg := false, isDeclaration := false,
    blocks := [⟨0, [⟨70,
      .loadI (.const (.ptrv 4096 ⟨3, 4⟩)) 4 4,
      some ⟨"dir", "file", 12, 7⟩⟩]⟩] }

/-- Hooks whose load always fails. -/
def failingLoadHooks : MiriHooks :=
  { malloc := fun size _ _ => ⟨size, ⟨7, 8⟩⟩,
    load := fun _ _ _ => none }

/-- Witness for C5: a failing load latches the error in the concrete
single-frame state, and a succeeding load assigns the SSA slot. -/
theorem load_error_latch_witness :
    (visitLoadInst failingLoadHooks
        ⟨70, .loadI (.const (.ptrv 4096 ⟨3, 4⟩)) 4 4,
          some ⟨"dir", "file", 12, 7⟩⟩
        (.const (.ptrv 4096 ⟨3, 4⟩)) 4 4 (singleFrameState loadDemoFunc)).map
      (fun s2 => s2.miriErrorFlag) = .ok true ∧
    visitLoadInst
        { malloc := fun size _ _ => ⟨size, ⟨7, 8⟩⟩,
          load := fun _ _ _ => some (.int 32 9 nullProvenance) }
        ⟨70, .loadI (.const (.ptrv 4096 ⟨3, 4⟩)) 4 4,
          some ⟨"dir", "file", 12, 7⟩⟩
        (.const (.ptrv 4096 ⟨3, 4⟩)) 4 4 (singleFrameState loadDemoFunc) =
      .ok ((singleFrameState loadDemoFunc).setThread 0
        ({ ecStack := [ExecutionContext.init loadDemoFunc],
           exitValue := GenericValue.default0, initArgs := [],
           threadID := 0 : ExecutionThread }.setTop
          { ExecutionContext.init loadDemoFunc with
            values := (ExecutionContext.init loadDemoFunc).values.set 70
              (.int 32 9 nullProvenance) })) := by
  constructor
  · exact (load_error_latch.1 failingLoadHooks
      ⟨70, .loadI (.const (.ptrv 4096 ⟨3, 4⟩)) 4 4, some ⟨"dir", "file", 12, 7⟩⟩
      (.const (.ptrv 4096 ⟨3, 4⟩)) 4 4 (singleFrameState loadDemoFunc)
      { ecStack := [ExecutionContext.init loadDemoFunc],
        exitValue := GenericValue.default0, initArgs := [], threadID := 0 }
      (ExecutionContext.init loadDemoFunc) [] ⟨"dir", "file", 12, 7⟩
      rfl rfl rfl rfl).2.2.1
  · exact load_error_latch.2
      { malloc := fun size _ _ => ⟨size, ⟨7, 8⟩⟩,
        load := fun _ _ _ => some (.int 32 9 nullProvenance) }
      ⟨70, .loadI (.const (.ptrv 4096 ⟨3, 4⟩)) 4 4, some ⟨"dir", "file", 12, 7⟩⟩
      (.const (.ptrv 4096 ⟨3, 4⟩)) 4 4 (singleFrameState loadDemoFunc)
      { ecStack := [ExecutionContext.init loadDemoFunc],
        exitValue := GenericValue.default0, initArgs := [], threadID := 0 }
      (ExecutionContext.init loadDemoFunc) [] (.int 32 9 nullProvenance)
      rfl rfl rfl

/-! ## C6: alloca size computation -/

/-- The allocation size exactly as the claim words it: the *exact*
(unbounded-integer) product `max(1, num_elements × element_alloc_size)`.
This is the claim-side definition used to compare against the code. -/
def allocaSizeClaimExact (numElements elementAllocSize : Nat) : Nat :=
  max 1 (numElements * elementAllocSize)

/-- A function whose entry block allocates `2^31` elements of alloc size
2 (e.g. `alloca i16, i64 2147483648`). -/
def allocaDemoFunc : Func :=
  { params := [], isVarArg := false, isDeclaration := false,
    blocks := [⟨0, [⟨40,
      .allocaI (.const (.int 64 (2 ^ 31) nullProvenance)) 2 4, none⟩]⟩] }

/-- Hooks whose malloc records the requested size in the address. -/
def sizeRecordingHooks : MiriHooks :=
  { malloc := fun size _ _ => ⟨size, ⟨7, 8⟩⟩,
    load := fun _ _ _ => none }

/-- **C6 counterexample.** The claim says the size passed to the malloc
hook equals `max(1, num_elements × element_alloc_size)` in exact
unbounded-integer arithmetic.  The code computes
`unsigned NumElements * unsigned TypeSize`, a 32-bit product: for
`2^31` elements of size 2 the product wraps to 0 and the hook receives
`max(1, 0) = 1`, not the exact `2^32`. -/
theorem alloca_size_exact_counterexample :
    (topFrameOf (visitAllocaInst sizeRecordingHooks
        ⟨40, .allocaI (.const (.int 64 (2 ^ 31) nullProvenance)) 2 4, none⟩
        (.const (.int 64 (2 ^ 31) nullProvenance)) 2 4
        (singleFrameState allocaDemoFunc)) 0).map
      (fun sf => sf.values 40) = some (.ptrv 1 ⟨7, 8⟩) ∧
    allocaSizeClaimExact (2 ^ 31) 2 = 2 ^ 32 ∧
    GenericValue.ptrv 1 ⟨7, 8⟩ ≠
      MiriPointerTOGV (sizeRecordingHooks.malloc
        (allocaSizeClaimExact (2 ^ 31) 2) 4 false) := by
  refine ⟨rfl, by decide, ?_⟩
  intro h
  have : (1 : Nat) = 2 ^ 32 := congrArg GenericValue.asAddr h
  simp at this

/-- **C6 (amended).** `visitAllocaInst` passes the oracle malloc hook the
size `max(1, (num_elements × element_alloc_size) mod 2^32)` — both
factors first truncated to 32 bits — together with the requested
alignment and `is_stack = false`; the returned pointer-with-provenance
becomes the instruction's result and is appended to the frame's oracle
alloca holder. -/
theorem alloca_size_mod32 :
    ∀ (hooks : MiriHooks) (i : Instr) (numOp : Operand)
      (tsize align : Nat) (s : InterpState) (th : ExecutionThread)
      (sf : ExecutionContext) (rest : List ExecutionContext),
      s.threads s.currentThreadID = some th →
      th.ecStack = sf :: rest →
      visitAllocaInst hooks i numOp tsize align s =
        .ok (s.setThread s.currentThreadID (th.setTop
          { sf with
            values := sf.values.set i.id (MiriPointerTOGV
              (hooks.malloc
                (max 1 ((((getOperandValue numOp sf).intZExt % 2 ^ 32) *
                  (tsize % 2 ^ 32)) % 2 ^ 32)) align false)),
            miriAllocas := sf.miriAllocas ++
              [hooks.malloc
                (max 1 ((((getOperandValue numOp sf).intZExt % 2 ^ 32) *
                  (tsize % 2 ^ 32)) % 2 ^ 32)) align false] })) := by
  intro hooks i numOp tsize align s th sf rest hth hstack
  unfold visitAllocaInst withTopFrame
  simp only [hth, hstack]

/-- Witness for C6: the amended statement applied to the concrete
single-frame alloca state. -/
theorem alloca_size_mod32_witness :
    visitAllocaInst sizeRecordingHooks
        ⟨40, .allocaI (.const (.int 64 (2 ^ 31) nullProvenance)) 2 4, none⟩
        (.const (.int 64 (2 ^ 31) nullProvenance)) 2 4
        (singleFrameState allocaDemoFunc) =
      .ok ((singleFrameState allocaDemoFunc).setThread 0
        ({ ecStack := [ExecutionContext.init allocaDemoFunc],
           exitValue := GenericValue.default0, initArgs := [],
           threadID := 0 : ExecutionThread }.setTop
          { ExecutionContext.init allocaDemoFunc with
            values := (ExecutionContext.init allocaDemoFunc).values.set 40
              (MiriPointerTOGV (sizeRecordingHooks.malloc
                (max 1 ((((getOperandValue
                  (.const (.int 64 (2 ^ 31) nullProvenance))
                  (ExecutionContext.init allocaDemoFunc)).intZExt % 2 ^ 32) *
                  (2 % 2 ^ 32)) % 2 ^ 32)) 4 false)),
            miriAllocas := [sizeRecordingHooks.malloc
              (max 1 ((((getOperandValue
                (.const (.int 64 (2 ^ 31) nullProvenance))
                (ExecutionContext.init allocaDemoFunc)).intZExt % 2 ^ 32) *
                (2 % 2 ^ 32)) % 2 ^ 32)) 4 false] })) := by
  exact alloca_size_mod32 sizeRecordingHooks
    ⟨40, .allocaI (.const (.int 64 (2 ^ 31) nullProvenance)) 2 4, none⟩
    (.const (.int 64 (2 ^ 31) nullProvenance)) 2 4
    (singleFrameState allocaDemoFunc)
    { ecStack := [ExecutionContext.init allocaDemoFunc],
      exitValue := GenericValue.default0, initArgs := [], threadID := 0 }
    (ExecutionContext.init allocaDemoFunc) [] rfl rfl

/-! ## C1: the pending-return protocol of `stepThread` -/

/-- A function whose body is a single `ret void`. -/
def stepDemoFunc : Func :=
  { params := [], isVarArg := false, isDeclaration := false,
    blocks := [⟨0, [⟨50, .retI none, none⟩]⟩] }

/-- A function whose body is a (non-void) call followed by an `add` that
reads the call's SSA slot and a `ret` of that sum. -/
def stepDemoFunc2 : Func :=
  { params := [], isVarArg := false, isDeclaration := false,
    blocks := [⟨0, [⟨60, .callI false, none⟩,
      ⟨61, .addI (.var 60) (.const (.int 32 0 nullProvenance)), none⟩,
      ⟨62, .retI (some (.var 61)), none⟩]⟩] }

/-- A state suspended right after the call of `stepDemoFunc2`: the cursor
sits past the call and `MustResolvePendingReturn` is armed. -/
def suspendedState : InterpState :=
  { threads := fun id =>
      if id = 0 then
        some { ecStack := [{ ExecutionContext.init stepDemoFunc2 with
                 curInst := 1, mustResolvePendingReturn := true }],
               exitValue := GenericValue.default0, initArgs := [],
               threadID := 0 }
      else none,
    currentThreadID := 0, miriErrorFlag := false, stackTrace := [] }

/-- Hooks that are never consulted by these steps. -/
def stepDemoHooks : MiriHooks :=
  { malloc := fun size _ _ => ⟨size, nullProvenance⟩,
    load := fun _ _ _ => none }

/-- **C1.** The resolving half of the pending-return protocol behaves as
the claim says: with `must_resolve_pending_return` set, a null pending
return is the fatal protocol error, and a non-null one is written into
the call instruction's SSA slot (observed through the following `add`).
But with the flag *clear* the source raises the fatal
"Unexpectedly received a pending return value." error exactly when the
pending return is null — every ordinary step must smuggle in a non-null
dummy — and silently accepts a non-null one, the reverse of the claim's
"passing a non-null pending return is a protocol error". -/
theorem step_pending_return_protocol :
    stepThread stepDemoHooks (singleFrameState stepDemoFunc) 0 none =
      .fatal "Unexpectedly received a pending return value." ∧
    (stepThread stepDemoHooks (singleFrameState stepDemoFunc) 0
      (some GenericValue.default0)).map (fun p => p.2) = .ok true ∧
    stepThread stepDemoHooks suspendedState 0 none =
      .fatal "Expected to receive a return value, but pending return value is null" ∧
    (topFrameOf ((stepThread stepDemoHooks suspendedState 0
        (some (.int 32 42 nullProvenance))).map (fun p => p.1)) 0).map
      (fun sf => (sf.values 61, sf.mustResolvePendingReturn)) =
      some (.int 32 42 nullProvenance, false) := by
  exact ⟨rfl, rfl, rfl, rfl⟩

/-! ## C3: `createThread` -/

/-- A variadic function of declared arity 1 (parameter name 10). -/
def ctDemoFunc : Func :=
  { params := [10], isVarArg := true, isDeclaration := false,
    blocks := [⟨0, [⟨50, .retI none, none⟩]⟩] }

/-- A base state with no threads, current id 5. -/
def ctDemoState : InterpState :=
  { threads := fun _ => none, currentThreadID := 5,
    miriErrorFlag := false, stackTrace := [] }

/-- The frame the claim describes: `func` entered "with the arguments
truncated to func's declared arity" — only the first `arity` arguments
survive, so nothing is left over for the varargs list.  Claim-side
definition for comparison with the code. -/
def callFrameTruncatedClaim (f : Func) (entry : BasicBlock)
    (args : List GenericValue) : ExecutionContext :=
  { ExecutionContext.init f with
    curBB := entry.id, curInst := 0,
    values := (List.zip f.params (args.take f.params.length)).foldl
      (fun m kv => m.set kv.1 kv.2) (fun _ => GenericValue.default0),
    varargs := [] }

/-- **C3 counterexample.** `createThread(7, f, [1, 2])` on the variadic
arity-1 function pushes a frame whose varargs list holds the surplus
argument `2`: the arguments are *not* truncated to the declared arity as
the claim (and the spec's `CreateThread` sentence) state. -/
theorem createThread_truncation_counterexample :
    (topFrameOf (createThread ctDemoState 7 ctDemoFunc
        [.int 32 1 nullProvenance, .int 32 2 nullProvenance]) 7).map
      (fun sf => sf.varargs) = some [.int 32 2 nullProvenance] ∧
    (callFrameTruncatedClaim ctDemoFunc ⟨0, [⟨50, .retI none, none⟩]⟩
      [.int 32 1 nullProvenance, .int 32 2 nullProvenance]).varargs = [] ∧
    some [GenericValue.int 32 2 nullProvenance] ≠
      some ([] : List GenericValue) := by
  exact ⟨rfl, rfl, by simp⟩

/-- **C3 (amended).** `createThread(id, f, args)` installs a fresh thread
under `id` with the initial arguments stashed in `InitArgs`, switches to
it, pushes one frame that executes `f` from its entry block with the
first `arity` arguments bound to the parameters and the *surplus
arguments moved into the frame's varargs list*, then switches back to
the previously current thread; the new thread has not executed any
instruction (`CurInst` at the entry's first instruction, no previous
instruction). -/
theorem createThread_spec :
    ∀ (s : InterpState) (id : Nat) (f : Func) (args : List GenericValue)
      (entry : BasicBlock) (restBlocks : List BasicBlock),
      f.isDeclaration = false →
      f.blocks = entry :: restBlocks →
      f.params.length ≤ args.length →
      (createThread s id f args).map (fun s2 => s2.currentThreadID) =
        .ok s.currentThreadID ∧
      (createThread s id f args).map
        (fun s2 => (s2.threads id).map (fun th => th.initArgs)) =
        .ok (some args) ∧
      (createThread s id f args).map
        (fun s2 => (s2.threads id).map (fun th => th.ecStack.length)) =
        .ok (some 1) ∧
      topFrameOf (createThread s id f args) id =
        some { ExecutionContext.init f with
          curBB := entry.id, curInst := 0,
          values := (List.zip f.params args).foldl
            (fun m kv => m.set kv.1 kv.2) (fun _ => GenericValue.default0),
          varargs := args.drop f.params.length } := by
  intro s id f args entry restBlocks hdecl hblocks hle
  have hrun : createThread s id f args =
      .ok { (createThreadContext s id args).setThread id
              { ExecutionThread.init id with
                initArgs := args,
                ecStack := [{ ExecutionContext.init f with
                  curBB := entry.id, curInst := 0,
                  values := (List.zip f.params args).foldl
                    (fun m kv => m.set kv.1 kv.2)
                    (fun _ => GenericValue.default0),
                  varargs := args.drop f.params.length }] }
            with currentThreadID := s.currentThreadID } := by
    unfold createThread createThreadContext InterpState.switchThread
      callFunction
    simp only [hdecl, hblocks, Bool.false_eq_true, if_false,
      InterpState.setThread, ExecutionThread.init, ExecutionContext.init,
      if_pos, hle, ite_true]
  rw [hrun]
  refine ⟨rfl, ?_, ?_, ?_⟩ <;>
    simp [InterpState.setThread, createThreadContext, topFrameOf,
      ExecutionThread.init, Outcome.map]

/-- Witness for C3 (amended): `createThread` applied to the concrete
variadic function and two arguments. -/
theorem createThread_spec_witness :
    ctDemoFunc.params.length ≤
      ([GenericValue.int 32 1 nullProvenance,
        GenericValue.int 32 2 nullProvenance] : List GenericValue).length ∧
    topFrameOf (createThread ctDemoState 7 ctDemoFunc
        [.int 32 1 nullProvenance, .int 32 2 nullProvenance]) 7 =
      some { ExecutionContext.init ctDemoFunc with
        curBB := 0, curInst := 0,
        values := (List.zip ctDemoFunc.params
          ([.int 32 1 nullProvenance, .int 32 2 nullProvenance] :
            List GenericValue)).foldl (fun m kv => m.set kv.1 kv.2)
          (fun _ => GenericValue.default0),
        varargs := [.int 32 2 nullProvenance] } :=
  ⟨by decide,
   (createThread_spec ctDemoState 7 ctDemoFunc
      [.int 32 1 nullProvenance, .int 32 2 nullProvenance]
      ⟨0, [⟨50, .retI none, none⟩]⟩ [] rfl rfl (by decide)).2.2.2⟩

/-! ## C8: `ret` pops, delivers, and exits -/

/-- `ret i32 (add i32 2, i32 3)` as a two-instruction function. -/
def retScenarioFunc : Func :=
  { params := [], isVarArg := false, isDeclaration := false,
    blocks := [⟨0,
      [⟨100, .addI (.const (.int 32 2 nullProvenance))
        (.const (.int 32 3 nullProvenance)), none⟩,
       ⟨101, .retI (some (.var 100)), none⟩]⟩] }

/-- The end-to-end scenario of the claim: `CreateThread` on
`retScenarioFunc`, then one `StepThread` per instruction; the outcome
records the thread's exit value and the two emptiness flags returned by
the steps. -/
def retScenario : Option (GenericValue × Bool × Bool) :=
  match createThread
      { threads := fun _ => none, currentThreadID := 0,
        miriErrorFlag := false, stackTrace := [] }
      0 retScenarioFunc [] with
  | .fatal _ => none
  | .ok s1 =>
    match stepThread stepDemoHooks s1 0 (some GenericValue.default0) with
    | .fatal _ => none
    | .ok (s2, b1) =>
      match stepThread stepDemoHooks s2 0 (some GenericValue.default0) with
      | .fatal _ => none
      | .ok (s3, b2) =>
        match s3.threads 0 with
        | none => none
        | some th => some (th.exitValue, b1, b2)

/-- **C8.** `visitReturnInst` pops the current frame.  If the stack
becomes empty the returned value lands in the thread's exit slot; if a
frame remains and records a `Caller`, the value is written to the
caller's SSA slot (skipped for a void call), an invoke caller switches
to its normal destination, and `Caller` is cleared.  Driving
`ret i32 (add i32 2, i32 3)` through `CreateThread` plus one
`StepThread` per instruction yields the exit value: the 32-bit
integer 5. -/
theorem ret_pops_and_delivers :
    (∀ (s : InterpState) (th : ExecutionThread) (sf : ExecutionContext)
        (op : Operand),
        s.threads s.currentThreadID = some th →
        th.ecStack = [sf] →
        (visitReturnInst (some op) s).map
          (fun s2 => (s2.threads s.currentThreadID).map
            (fun th2 => (th2.ecStack.length, th2.exitValue))) =
          .ok (some (0, getOperandValue op sf))) ∧
    (∀ (s : InterpState) (th : ExecutionThread) (sfTop sfC : ExecutionContext)
        (rest : List ExecutionContext) (c : CallerInfo) (op : Operand),
        s.threads s.currentThreadID = some th →
        th.ecStack = sfTop :: sfC :: rest →
        sfC.caller = some c →
        c.isVoid = false →
        c.normalDest = none →
        topFrameOf (visitReturnInst (some op) s) s.currentThreadID =
          some { sfC with
            values := sfC.values.set c.id (getOperandValue op sfTop),
            caller := none }) ∧
    (∀ (s : InterpState) (th : ExecutionThread) (sfTop sfC : ExecutionContext)
        (rest : List ExecutionContext) (c : CallerInfo) (op : Operand),
        s.threads s.currentThreadID = some th →
        th.ecStack = sfTop :: sfC :: rest →
        sfC.caller = some c →
        c.isVoid = true →
        c.normalDest = none →
        topFrameOf (visitReturnInst (some op) s) s.currentThreadID =
          some { sfC with caller := none }) ∧
    (∀ (s : InterpState) (th : ExecutionThread) (sfTop sfC : ExecutionContext)
        (rest : List ExecutionContext) (c : CallerInfo) (op : Operand)
        (nd : BlockId) (sfN : ExecutionContext),
        s.threads s.currentThreadID = some th →
        th.ecStack = sfTop :: sfC :: rest →
        sfC.caller = some c →
        c.isVoid = false →
        c.normalDest = some nd →
        SwitchToNewBasicBlock nd
          { sfC with
            values := sfC.values.set c.id (getOperandValue op sfTop) } =
          .ok sfN →
        topFrameOf (visitReturnInst (some op) s) s.currentThreadID =
          some { sfN with caller := none }) ∧
    retScenario = some (.int 32 5 nullProvenance, false, true) := by
  refine ⟨?_, ?_, ?_, ?_, rfl⟩
  · intro s th sf op hth hstack
    unfold visitReturnInst withTopFrame popStackAndReturnValueToCaller
      passReturnValueToLowerStackFrame
    simp [hth, hstack, InterpState.setThread, Outcome.map]
  · intro s th sfTop sfC rest c op hth hstack hcaller hvoid hnd
    unfold visitReturnInst withTopFrame popStackAndReturnValueToCaller
      passReturnValueToLowerStackFrame topFrameOf
    simp [hth, hstack, hcaller, hvoid, hnd, InterpState.setThread]
  · intro s th sfTop sfC rest c op hth hstack hcaller hvoid hnd
    unfold visitReturnInst withTopFrame popStackAndReturnValueToCaller
      passReturnValueToLowerStackFrame topFrameOf
    simp [hth, hstack, hcaller, hvoid, hnd, InterpState.setThread]
  · intro s th sfTop sfC rest c op nd sfN hth hstack hcaller hvoid hnd hsw
    rw [hcaller] at hsw
    unfold visitReturnInst withTopFrame popStackAndReturnValueToCaller
      passReturnValueToLowerStackFrame topFrameOf
    simp [hth, hstack, hcaller, hvoid, hnd, hsw, InterpState.setThread]

/-- The frame used by the C8 witness: a single frame whose SSA slot 100
already holds the 32-bit value 5. -/
def retWitFrame : ExecutionContext :=
  { ExecutionContext.init retScenarioFunc with
    values := VarMap.set (fun _ => GenericValue.default0) 100
      (.int 32 5 nullProvenance) }

/-- The single-thread state around `retWitFrame`. -/
def retWitState : InterpState :=
  { threads := fun id =>
      if id = 0 then
        some { ecStack := [retWitFrame], exitValue := GenericValue.default0,
               initArgs := [], threadID := 0 }
      else none,
    currentThreadID := 0, miriErrorFlag := false, stackTrace := [] }

/-- Witness for C8: returning `%100` from the bottom frame places the
value 5 in the exit slot and empties the stack. -/
theorem ret_pops_and_delivers_witness :
    (visitReturnInst (some (.var 100)) retWitState).map
      (fun s2 => (s2.threads 0).map
        (fun th2 => (th2.ecStack.length, th2.exitValue))) =
      .ok (some (0, getOperandValue (.var 100) retWitFrame)) :=
  ret_pops_and_delivers.1 retWitState
    { ecStack := [retWitFrame], exitValue := GenericValue.default0,
      initArgs := [], threadID := 0 }
    retWitFrame (.var 100) rfl rfl
